import Mathlib

/-!
# go-computing-provider: the `ubi` commands and the database handle

A shallow embedding of `cmd/computing-provider/ubi.go` (the `ubi list` and
`ubi detail` actions) and of `internal/db/db.go` (`InitDb`, `NewDbService`).

Conventions of the embedding

* Go strings are `String`; a nil slice and an empty slice are both `[]`.
* `int`, `int64` are `Int`; `int(task.Id)` is the identity (64-bit `int`).
* The packages `models`, `conf`, `computing` and the libraries `gorm`,
  `tablewriter` are not part of the translated files.  Their constants and
  functions are taken as parameters (`Models`, `World`, `DbWorld`); the
  standard-library functions `strings.TrimSpace`, `strconv.ParseInt`,
  `strconv.Itoa`, `time.Unix(..).Format` are written out.
* An action returns an `Outcome`: the service queries it issued, the table it
  handed to `NewVisualTable(..).Generate(..)` (if any) and the returned error.
-/

namespace Ubi

/-! ## Data model -/

/-- The `tablewriter` colour attributes that `ubi.go` mentions. -/
inductive TableAttr where
  | Bold
  | FgWhiteColor
  | FgCyanColor
  | FgGreenColor
  | FgRedColor
  deriving DecidableEq, Repr

/-- A `tablewriter.Colors` value (a slice of attributes). -/
abbrev Colors := List TableAttr

/-- The struct `RowColor` used by `NewVisualTable`. -/
structure RowColor where
  row : Nat
  column : List Nat
  color : List Colors
  deriving DecidableEq, Repr

/-- The fields of `models.TaskEntity` that `ubi.go` reads. -/
structure TaskEntity where
  Id : Int
  Name : String
  ResourceType : Int
  ZkType : String
  Contract : String
  TxHash : String
  Status : Int
  RewardStatus : Int
  Reward : String
  RewardTx : String
  ChallengeTx : String
  SlashTx : String
  CreateTime : Int
  deriving DecidableEq, Repr

/-- The constants and string functions of package `models` used by `ubi.go`.
Their declarations are outside the translated files, so they are parameters. -/
structure Models where
  TASK_RECEIVED_STATUS : Int
  TASK_RUNNING_STATUS : Int
  TASK_SUCCESS_STATUS : Int
  TASK_FAILED_STATUS : Int
  GetSourceTypeStr : Int → String
  TaskStatusStr : Int → String
  GetRewardStr : Int → String

/-- The two sentinel errors of `strconv`. -/
inductive NumErr where
  | ErrSyntax
  | ErrRange
  deriving DecidableEq, Repr

/-- A Go `error` value as the commands produce it: either the text built by
`fmt.Errorf`, or a `*strconv.NumError` with its fields. -/
inductive GoError where
  | errorf (text : String)
  | numError (Func : String) (Num : String) (Err : NumErr)
  deriving DecidableEq, Repr

/-- The arguments of one `NewVisualTable(header, data, rowColor).Generate(flag)` call. -/
structure VisualTable where
  header : List String
  data : List (List String)
  rowColor : List RowColor
  generateFlag : Bool
  deriving DecidableEq, Repr

/-- A call to the task service. -/
inductive Query where
  | GetAllTask
  | GetTaskList (status : Int)
  | GetTaskEntity (id : Int)
  deriving DecidableEq, Repr

/-- What an action did: service calls in order, the table rendered, the error returned
(`none` is the `nil` of Go). -/
structure Outcome where
  queries : List Query
  rendered : Option VisualTable
  err : Option GoError
  deriving DecidableEq, Repr

/-- Everything outside the action that it can observe: the environment variable
`CP_PATH`, the behaviour of `conf.InitConfig`, the command line, the answers of the
task service and the local time zone of the process (seconds east of UTC in force at a
given Unix time), which `time.Unix` attaches to the time it returns. -/
structure World where
  CP_PATH : String
  InitConfig : String → Option String
  showFailed : Bool
  arg0 : String
  GetAllTask : Except String (List TaskEntity)
  GetTaskList : Int → Except String (List TaskEntity)
  GetTaskEntity : Int → Except String TaskEntity
  Local : Int → Int

/-! ## Standard-library functions -/

/-- Decimal digits of a natural number, as `strconv` prints them. -/
def natDec (n : Nat) : String := String.mk (Nat.toDigits 10 n)

/-- The function `strconv.Itoa`. -/
def Itoa (i : Int) : String :=
  match i with
  | Int.ofNat n => natDec n
  | Int.negSucc n => "-" ++ natDec (n + 1)

/-- Left-pad the digits of `n` with zeros to at least `width` characters. -/
def padNat (width n : Nat) : String :=
  let ds := Nat.toDigits 10 n
  String.mk (List.replicate (width - ds.length) '0' ++ ds)

/-- The helper `appendInt(b, x, width)` of package `time` (sign, then zero-padded digits). -/
def appendInt (x : Int) (width : Nat) : String :=
  match x with
  | Int.ofNat n => padNat width n
  | Int.negSucc n => "-" ++ padNat width (n + 1)

/-- Civil date (year, month, day) of a day count relative to 1970-01-01 in the
proleptic Gregorian calendar, which is the calendar of package `time`: the count is taken
from 0000-03-01, then 400-year, 100-year, 4-year cycles and years are cut off (the last
cycle of each kind is one day longer), and the day of the March-based year gives month and
day. -/
def civilFromDays (days : Int) : Int × Int × Int :=
  let z := days + 719468
  let n400 := z / 146097
  let r400 := z % 146097
  let n100 := if r400 / 36524 = 4 then 3 else r400 / 36524
  let r100 := r400 - 36524 * n100
  let n4 := r100 / 1461
  let r4 := r100 % 1461
  let n1 := if r4 / 365 = 4 then 3 else r4 / 365
  let doy := r4 - 365 * n1
  let y := 400 * n400 + 100 * n100 + 4 * n4 + n1
  let mp := (5 * doy + 2) / 153
  let d := doy - (153 * mp + 2) / 5 + 1
  let m := if mp < 10 then mp + 3 else mp - 9
  (if m ≤ 2 then y + 1 else y, m, d)

/-- The constant `unixToAbsolute` of package `time`: the seconds from its absolute zero
(March 1 of the year -292277022400, as of Go 1.23) to the Unix epoch. -/
def unixToAbsolute : Int := 9223372028741760000

/-- The fields of a wall clock reading. -/
structure Clock where
  year : Int
  month : Int
  day : Int
  hour : Int
  minute : Int
  second : Int
  deriving DecidableEq, Repr

/-- The date and clock that `time.Unix(sec, 0)` shows in the local zone `loc`: package
`time` adds the zone offset and `unixToAbsolute`, keeps the sum as an unsigned 64-bit
count of seconds (so it wraps modulo `2^64 = 18446744073709551616`), and splits that
count into days and seconds of the day. -/
def wallClock (loc : Int → Int) (sec : Int) : Clock :=
  let abs := (sec + loc sec + unixToAbsolute) % 18446744073709551616
  let days := abs / 86400
  let rem := abs % 86400
  let ymd := civilFromDays (days - 106751991073400)
  { year := ymd.1, month := ymd.2.1, day := ymd.2.2,
    hour := rem / 3600, minute := rem % 3600 / 60, second := rem % 60 }

/-- The expression `time.Unix(sec, 0).Format("2006-01-02 15:04:05")`: `time.Unix`
returns the time in the local zone `loc`, and `Format` prints that wall clock. -/
def formatUnix (loc : Int → Int) (sec : Int) : String :=
  let c := wallClock loc sec
  appendInt c.year 4 ++ "-" ++ appendInt c.month 2 ++ "-" ++ appendInt c.day 2 ++ " " ++
    appendInt c.hour 2 ++ ":" ++ appendInt c.minute 2 ++ ":" ++ appendInt c.second 2

/-- The predicate `unicode.IsSpace` (the White_Space code points). -/
def isSpace (c : Char) : Bool :=
  let r := c.toNat
  (9 ≤ r && r ≤ 13) || r = 32 || r = 0x85 || r = 0xA0 || r = 0x1680 ||
    (0x2000 ≤ r && r ≤ 0x200A) || r = 0x2028 || r = 0x2029 || r = 0x202F ||
    r = 0x205F || r = 0x3000

/-- The function `strings.TrimSpace`: the string without its leading and trailing white
space. -/
def TrimSpace (s : String) : String :=
  String.mk ((s.data.dropWhile isSpace).reverse.dropWhile isSpace).reverse

/-- Digit value that the loop of `strconv.ParseUint` assigns to one byte: `c - 48` for
a decimal digit, `lower(c) - 97 + 10` for a letter (`lower(c) = c | 0x20`), nothing
otherwise.  A byte of a multi-byte character is above `z` and gets nothing. -/
def digitVal (c : Char) : Option Nat :=
  let b := c.toNat
  if 48 ≤ b ∧ b ≤ 57 then some (b - 48)
  else if b < 128 ∧ 97 ≤ (b ||| 32) ∧ (b ||| 32) ≤ 122 then some ((b ||| 32) - 97 + 10)
  else none

/-- The value `maxUint64/10 + 1` that `ParseUint` uses as `cutoff` in base 10. -/
def uintCutoff : Nat := (2 ^ 64 - 1) / 10 + 1

/-- The digit loop of `strconv.ParseUint(s, 10, 64)`, with `uint64` wrap-around
written out.  On a range error the value is `maxVal`. -/
def parseUintLoop : List Char → Nat → Nat × Option NumErr
  | [], n => (n, none)
  | c :: cs, n =>
    match digitVal c with
    | none => (0, some NumErr.ErrSyntax)
    | some d =>
      if d ≥ 10 then (0, some NumErr.ErrSyntax)
      else if n ≥ uintCutoff then (2 ^ 64 - 1, some NumErr.ErrRange)
      else
        let n10 := (n * 10) % 2 ^ 64
        let n1 := (n10 + d) % 2 ^ 64
        if n1 < n10 ∨ n1 > 2 ^ 64 - 1 then (2 ^ 64 - 1, some NumErr.ErrRange)
        else parseUintLoop cs n1

/-- The call `strconv.ParseUint(s, 10, 64)`: value and error kind. -/
def ParseUint (s : List Char) : Nat × Option NumErr :=
  if s = [] then (0, some NumErr.ErrSyntax) else parseUintLoop s 0

/-- Conversion `int64(x)` with two-complement wrap-around. -/
def toInt64 (x : Int) : Int := (x + 2 ^ 63) % 2 ^ 64 - 2 ^ 63

/-- The call `strconv.ParseInt(s, 10, 64)`: value and error. -/
def ParseInt (s : String) : Int × Option GoError :=
  match s.data with
  | [] => (0, some (GoError.numError "ParseInt" s NumErr.ErrSyntax))
  | c0 :: rest =>
    let neg : Bool := c0.toNat = 45
    let body : List Char :=
      if c0.toNat = 43 then rest else if c0.toNat = 45 then rest else c0 :: rest
    match ParseUint body with
    | (_, some NumErr.ErrSyntax) => (0, some (GoError.numError "ParseInt" s NumErr.ErrSyntax))
    | (un, _) =>
      let cutoff : Nat := 2 ^ 63
      if !neg && un ≥ cutoff then
        (toInt64 ((cutoff : Int) - 1), some (GoError.numError "ParseInt" s NumErr.ErrRange))
      else if neg && un > cutoff then
        (toInt64 (-toInt64 cutoff), some (GoError.numError "ParseInt" s NumErr.ErrRange))
      else
        let n := toInt64 un
        (if neg then toInt64 (-n) else n, none)

/-! ## `ubi list` -/

/-- The colour chosen in the loop body of `listCmd` (lines 71-80). -/
def listRowColor (m : Models) (task : TaskEntity) : List Colors :=
  if task.Status = m.TASK_RECEIVED_STATUS then [[TableAttr.Bold, TableAttr.FgWhiteColor]]
  else if task.Status = m.TASK_RUNNING_STATUS then [[TableAttr.Bold, TableAttr.FgCyanColor]]
  else if task.Status = m.TASK_SUCCESS_STATUS then [[TableAttr.Bold, TableAttr.FgGreenColor]]
  else if task.Status = m.TASK_FAILED_STATUS then [[TableAttr.Bold, TableAttr.FgRedColor]]
  else []

/-- The row appended for one task in the loop body of `listCmd` (lines 66-69). -/
def listRow (m : Models) (loc : Int → Int) (task : TaskEntity) : List String :=
  let createTime := formatUnix loc task.CreateTime
  [Itoa task.Id, m.GetSourceTypeStr task.ResourceType, task.ZkType, task.TxHash,
    m.TaskStatusStr task.Status, task.Reward, createTime]

/-- The loop `for i, task := range taskList` of `listCmd`: `i` is the current index,
`taskData` and `rowColorList` the slices built so far. -/
def listLoop (m : Models) (loc : Int → Int) :
    List TaskEntity → Nat → List (List String) → List RowColor →
      List (List String) × List RowColor
  | [], _, taskData, rowColorList => (taskData, rowColorList)
  | task :: rest, i, taskData, rowColorList =>
    listLoop m loc rest (i + 1) (taskData ++ [listRow m loc task])
      (rowColorList ++ [{ row := i, column := [4], color := listRowColor m task }])

/-- The header of the `ubi list` table. -/
def listHeader : List String :=
  ["TASK ID", "TASK TYPE", "ZK TYPE", "PROOF HASH", "STATUS", "REWARD", "CREATE TIME"]

/-- The table `listCmd` renders for a task list (lines 65-90). -/
def listTable (m : Models) (loc : Int → Int) (taskList : List TaskEntity) : VisualTable :=
  let r := listLoop m loc taskList 0 [] []
  { header := listHeader, data := r.1, rowColor := r.2, generateFlag := true }

/-- The action of `listCmd`. -/
def listAction (m : Models) (w : World) : Outcome :=
  match w.InitConfig w.CP_PATH with
  | some e => ⟨[], none, some (GoError.errorf ("load config file failed, error: " ++ e))⟩
  | none =>
    if w.showFailed then
      match w.GetAllTask with
      | Except.error e =>
        ⟨[Query.GetAllTask], none, some (GoError.errorf ("failed get ubi task, error: " ++ e))⟩
      | Except.ok taskList =>
        ⟨[Query.GetAllTask], some (listTable m w.Local taskList), none⟩
    else
      match w.GetTaskList m.TASK_SUCCESS_STATUS with
      | Except.error e =>
        ⟨[Query.GetTaskList m.TASK_SUCCESS_STATUS], none,
          some (GoError.errorf ("failed get ubi task, error: " ++ e))⟩
      | Except.ok taskList =>
        ⟨[Query.GetTaskList m.TASK_SUCCESS_STATUS], some (listTable m w.Local taskList), none⟩

/-! ## `ubi detail` -/

/-- The rows `detailCmd` builds for a task entity (lines 120-137). -/
def detailRows (m : Models) (loc : Int → Int) (taskEntity : TaskEntity) : List (List String) :=
  let taskData : List (List String) := []
  let taskData := taskData ++ [["Task Name:", taskEntity.Name]]
  let taskData := taskData ++ [["ZK Type:", taskEntity.ZkType]]
  let taskData := taskData ++ [["Contract Address:", taskEntity.Contract]]
  let taskData := taskData ++ [["Task Status:", m.TaskStatusStr taskEntity.Status]]
  let taskData := taskData ++ [["Reward Status:", m.GetRewardStr taskEntity.RewardStatus]]
  let taskData := taskData ++ [["Reward:", taskEntity.Reward]]
  let taskData := taskData ++ [["Proof Tx Hash:", taskEntity.TxHash]]
  let taskData :=
    if taskEntity.RewardTx ≠ "" then taskData ++ [["Reward Tx Hash:", taskEntity.RewardTx]]
    else taskData
  let taskData :=
    if taskEntity.ChallengeTx ≠ "" then
      taskData ++ [["Challenge Tx Hash:", taskEntity.ChallengeTx]]
    else taskData
  let taskData :=
    if taskEntity.SlashTx ≠ "" then taskData ++ [["Slash Tx Hash:", taskEntity.SlashTx]]
    else taskData
  taskData ++ [["CreateTime:", formatUnix loc taskEntity.CreateTime]]

/-- The colour chosen by `detailCmd` (lines 140-149). -/
def detailRowColor (m : Models) (taskEntity : TaskEntity) : List Colors :=
  if taskEntity.Status = m.TASK_RECEIVED_STATUS then [[TableAttr.Bold, TableAttr.FgWhiteColor]]
  else if taskEntity.Status = m.TASK_RUNNING_STATUS then
    [[TableAttr.Bold, TableAttr.FgCyanColor]]
  else if taskEntity.Status = m.TASK_SUCCESS_STATUS then
    [[TableAttr.Bold, TableAttr.FgGreenColor]]
  else if taskEntity.Status = m.TASK_FAILED_STATUS then
    [[TableAttr.Bold, TableAttr.FgRedColor]]
  else []

/-- The colour list of `detailCmd` (lines 139-154): one entry. -/
def detailRowColorList (m : Models) (taskEntity : TaskEntity) : List RowColor :=
  let rowColorList : List RowColor := []
  rowColorList ++ [{ row := 3, column := [1], color := detailRowColor m taskEntity }]

/-- The table `detailCmd` renders (lines 120-157). -/
def detailTable (m : Models) (loc : Int → Int) (taskIdStr : String) (taskEntity : TaskEntity) :
    VisualTable :=
  { header := ["Task Id:", taskIdStr], data := detailRows m loc taskEntity,
    rowColor := detailRowColorList m taskEntity, generateFlag := false }

/-- The action of `detailCmd`. -/
def detailAction (m : Models) (w : World) : Outcome :=
  match w.InitConfig w.CP_PATH with
  | some e => ⟨[], none, some (GoError.errorf ("load config file failed, error: " ++ e))⟩
  | none =>
    let taskIdStr := w.arg0
    if TrimSpace taskIdStr = "" then ⟨[], none, some (GoError.errorf "task_id is required")⟩
    else
      match ParseInt taskIdStr with
      | (_, some err) => ⟨[], none, some err⟩
      | (taskId, none) =>
        match w.GetTaskEntity taskId with
        | Except.error e =>
          ⟨[Query.GetTaskEntity taskId], none,
            some (GoError.errorf ("get " ++ Itoa taskId ++ " task info failed, error: " ++ e))⟩
        | Except.ok taskEntity =>
          ⟨[Query.GetTaskEntity taskId], some (detailTable m w.Local taskIdStr taskEntity), none⟩

/-! ## Reading literals and rows back -/

/-- The answer of the query that `ubi list` issues in world `w`. -/
def listQueryResult (m : Models) (w : World) : Except String (List TaskEntity) :=
  if w.showFailed then w.GetAllTask else w.GetTaskList m.TASK_SUCCESS_STATUS

/-- Is `c` one of the characters `0` .. `9`? -/
def isDecDigit (c : Char) : Bool := 48 ≤ c.toNat && c.toNat ≤ 57

/-- The number written by a string of decimal digits. -/
def decValue (ds : List Char) : Nat := ds.foldl (fun a c => 10 * a + (c.toNat - 48)) 0

/-- The reading of "base-10 signed 64-bit integer literal": an optional sign `+` or `-`,
then one or more decimal digits and nothing else, denoting a value between `-2^63` and
`2^63 - 1`.  The result is the value denoted, `none` when `s` is not such a literal. -/
def literalValue (s : String) : Option Int :=
  let neg : Bool := s.data.head?.map Char.toNat = some 45
  let ds : List Char :=
    match s.data with
    | [] => []
    | c :: rest => if c.toNat = 43 ∨ c.toNat = 45 then rest else c :: rest
  if ds ≠ [] ∧ ds.all isDecDigit = true then
    let v : Int := if neg then -(decValue ds : Int) else (decValue ds : Int)
    if -(2 : Int) ^ 63 ≤ v ∧ v ≤ 2 ^ 63 - 1 then some v else none
  else none

/-- The task id shown by a rendered `ubi list` row: its first cell read back as a decimal
integer. -/
def rowId (r : List String) : Int := (ParseInt (r.headD "")).1

/-! ## The calendar reading of a count of seconds -/

/-- Is `y` a leap year of the Gregorian calendar? -/
def isLeapYear (y : Int) : Bool := y % 4 = 0 ∧ (y % 100 ≠ 0 ∨ y % 400 = 0)

/-- The number of days of month `m` in year `y`. -/
def daysInMonth (y m : Int) : Int :=
  if m = 2 then (if isLeapYear y then 29 else 28)
  else if m = 4 ∨ m = 6 ∨ m = 9 ∨ m = 11 then 30 else 31

/-- The days from 1970-01-01 to January 1 of year `y`: 365 per year plus one per leap year
in between. -/
def daysBeforeYear (y : Int) : Int :=
  365 * (y - 1970) + ((y - 1) / 4 - (y - 1) / 100 + (y - 1) / 400) - 477

/-- The days from January 1 of year `y` to the first day of month `m`. -/
def daysBeforeMonth (y m : Int) : Int :=
  (if m = 1 then 0 else if m = 2 then 31 else if m = 3 then 59 else if m = 4 then 90
    else if m = 5 then 120 else if m = 6 then 151 else if m = 7 then 181
    else if m = 8 then 212 else if m = 9 then 243 else if m = 10 then 273
    else if m = 11 then 304 else 334) + (if 2 < m ∧ isLeapYear y = true then 1 else 0)

/-- The days from 1970-01-01 to the date `y`-`m`-`d`. -/
def dayNumber (y m d : Int) : Int := daysBeforeYear y + daysBeforeMonth y m + (d - 1)

/-- Does the clock `c` read the instant `s` seconds after 1970-01-01 00:00:00 (on the same
wall clock): a valid date, a valid time of day, and the right count of seconds? -/
def isCivilReading (c : Clock) (s : Int) : Bool :=
  decide (1 ≤ c.month) && decide (c.month ≤ 12) && decide (1 ≤ c.day) &&
    decide (c.day ≤ daysInMonth c.year c.month) &&
    decide (0 ≤ c.hour) && decide (c.hour < 24) && decide (0 ≤ c.minute) &&
    decide (c.minute < 60) && decide (0 ≤ c.second) && decide (c.second < 60) &&
    decide (dayNumber c.year c.month c.day * 86400 + c.hour * 3600 + c.minute * 60 + c.second
      = s)

/-- The local count of seconds that package `time` splits into a date and a clock for
`time.Unix(sec, 0)`: the Unix time plus the zone offset, as far as the unsigned 64-bit
absolute count holds it. -/
def wallSeconds (loc : Int → Int) (sec : Int) : Int :=
  (sec + loc sec + unixToAbsolute) % 18446744073709551616 - unixToAbsolute

/-- The text of the layout `2006-01-02 15:04:05` for a clock whose year is between 0 and
9999: four digits of the year, `-`, two of the month, `-`, two of the day, a blank, two of
the hour, `:`, two of the minute, `:`, two of the second. -/
def clockText (c : Clock) : String :=
  String.mk
    [Nat.digitChar (c.year.toNat / 1000), Nat.digitChar (c.year.toNat / 100 % 10),
      Nat.digitChar (c.year.toNat / 10 % 10), Nat.digitChar (c.year.toNat % 10),
      Char.ofNat 45,
      Nat.digitChar (c.month.toNat / 10), Nat.digitChar (c.month.toNat % 10),
      Char.ofNat 45,
      Nat.digitChar (c.day.toNat / 10), Nat.digitChar (c.day.toNat % 10),
      Char.ofNat 32,
      Nat.digitChar (c.hour.toNat / 10), Nat.digitChar (c.hour.toNat % 10),
      Char.ofNat 58,
      Nat.digitChar (c.minute.toNat / 10), Nat.digitChar (c.minute.toNat % 10),
      Char.ofNat 58,
      Nat.digitChar (c.second.toNat / 10), Nat.digitChar (c.second.toNat % 10)]

/-! ## `internal/db/db.go` -/

/-- A `*gorm.DB` pointer, identified by a number. -/
abbrev Handle := Nat

/-- The library calls made by `InitDb`, taken as parameters: `path.Join`, the call
`gorm.Open(sqlite.Open(file), &gorm.Config{})`, which yields a handle or an error together
with the (possibly nil) pointer it returns beside the error, and `DB.AutoMigrate(..)`,
which yields an error or nil. -/
structure DbWorld where
  pathJoin : String → String → String
  gormOpen : String → Except (Option Handle × String) Handle
  autoMigrate : Handle → Option String

/-- A library call observed during `InitDb`. -/
inductive DbCall where
  | opened (file : String)
  | migrated (h : Handle)
  deriving DecidableEq, Repr

/-- The package state: the global variable `DB` (`none` is nil) and the calls made so far. -/
structure DbState where
  DB : Option Handle
  calls : List DbCall
  deriving DecidableEq, Repr

/-- The constant `cpDBName`. -/
def cpDBName : String := "provider.db"

/-- The function `InitDb`: the new state, and `Except.error msg` when it panics with `msg`.
The value returned by `AutoMigrate` is discarded, as in the source. -/
def InitDb (env : DbWorld) (st : DbState) (cpRepoPath : String) : DbState × Except String Unit :=
  let file := env.pathJoin cpRepoPath cpDBName
  match env.gormOpen file with
  | Except.error (db, _) =>
    ({ DB := db, calls := st.calls ++ [DbCall.opened file] },
      Except.error "failed to connect database")
  | Except.ok db =>
    let _ := env.autoMigrate db
    ({ DB := some db, calls := st.calls ++ [DbCall.opened file, DbCall.migrated db] },
      Except.ok ())

/-- The function `NewDbService`: returns the global `DB`, leaving the state as it is. -/
def NewDbService (st : DbState) : Option Handle × DbState := (st.DB, st)

/-- The results of `k` successive `NewDbService()` calls from state `st`. -/
def callNewDbService : Nat → DbState → List (Option Handle)
  | 0, _ => []
  | k + 1, st => (NewDbService st).1 :: callNewDbService k (NewDbService st).2

/-! ## Dispatch of a task

The orchestrator, the ledger writes and the execution engine
(`computing.DoUbiTaskForDocker`, `computing.ReceiveUbiProofForDocker`, the task service)
are called from `ubi.go` but their code is not among the translated files.  The
definitions of this section follow the specification, sections 3, 4.1, 4.2, 4.3 and 5. -/

/-- Modelled from the spec: the task status of section 3, "status ∈ {RECEIVED, RUNNING,
SUCCESS, FAILED}". -/
inductive TaskStatus where
  | RECEIVED
  | RUNNING
  | SUCCESS
  | FAILED
  deriving DecidableEq, Repr

/-- Modelled from the spec: the lifecycle part of a ledger record (section 3). -/
structure LedgerTask where
  status : TaskStatus
  deriving DecidableEq, Repr

/-- Modelled from the spec: the Task Ledger of section 4.1; the task id is the position of
the record. -/
abbrev Ledger := List LedgerTask

/-- Modelled from the spec: the ledger failures NotFound and Conflict of section 7. -/
inductive LedgerError where
  | NotFound
  | Conflict
  deriving DecidableEq, Repr

/-- Modelled from the spec: `updateStatus(id, from, to)` of section 4.1, the "conditional
write: fails with Conflict if the task's current status ≠ `from`". -/
def updateStatus (l : Ledger) (id : Nat) (expected target : TaskStatus) :
    Except LedgerError Ledger :=
  match l[id]? with
  | none => Except.error LedgerError.NotFound
  | some t =>
    if t.status = expected then Except.ok (l.set id { t with status := target })
    else Except.error LedgerError.Conflict

/-- Modelled from the spec: what one dispatch attempt answers: the job was started, or
Busy (section 4.3), or the ledger failure of the conditional write (section 4.1). -/
inductive DispatchResult where
  | Started
  | Busy
  | Conflict
  | NotFound
  deriving DecidableEq, Repr

/-- Modelled from the spec: the state shared by dispatch attempts: the ledger and the task
ids of the active jobs, one admission slot each (sections 3 and 4.3). -/
structure Provider where
  ledger : Ledger
  jobs : List Nat
  deriving DecidableEq, Repr

/-- Modelled from the spec: one dispatch attempt for task `id` under the concurrent-job
quota `quota`.  It "rejects with Busy if the provider's concurrent-job quota is exhausted"
(section 4.3); otherwise the transition RECEIVED→RUNNING is made by the conditional ledger
write (section 4.2), and a job for `id` becomes active when the write succeeds. -/
def dispatch (quota : Nat) (s : Provider) (id : Nat) : DispatchResult × Provider :=
  if quota ≤ s.jobs.length then (DispatchResult.Busy, s)
  else
    match updateStatus s.ledger id TaskStatus.RECEIVED TaskStatus.RUNNING with
    | Except.ok l2 => (DispatchResult.Started, { ledger := l2, jobs := id :: s.jobs })
    | Except.error LedgerError.Conflict => (DispatchResult.Conflict, s)
    | Except.error LedgerError.NotFound => (DispatchResult.NotFound, s)

/-- Modelled from the spec: `n` dispatch attempts for the same task `id`.  "All writes are
atomic at the single-task granularity" (section 4.1) and "per-task state transitions are
totally ordered" (section 5), so concurrent attempts take effect one after the other; the
attempts being the same call, every order is this sequence.  The result lists the answers
in that order, with the state after the last attempt. -/
def dispatchN (quota : Nat) (id : Nat) : Nat → Provider → List DispatchResult × Provider
  | 0, s => ([], s)
  | n + 1, s =>
    let r := dispatch quota s id
    let rest := dispatchN quota id n r.2
    (r.1 :: rest.1, rest.2)

/-! ## Sample data used to instantiate the theorems -/

/-- A sample instance of the `models` parameters. -/
def sampleModels : Models :=
  { TASK_RECEIVED_STATUS := 1
    TASK_RUNNING_STATUS := 2
    TASK_SUCCESS_STATUS := 3
    TASK_FAILED_STATUS := 4
    GetSourceTypeStr := fun r => if r = 1 then "GPU" else "CPU"
    TaskStatusStr := fun s =>
      if s = 1 then "received" else if s = 2 then "running" else if s = 3 then "success"
      else if s = 4 then "failed" else "unknown"
    GetRewardStr := fun r => if r = 1 then "rewarded" else "unreward" }

/-- A sample task with the given id and status. -/
def sampleTask (id status : Int) : TaskEntity :=
  { Id := id, Name := "task", ResourceType := 0, ZkType := "fil-c2", Contract := "0xc",
    TxHash := "0xabc", Status := status, RewardStatus := 0, Reward := "0.1",
    RewardTx := "", ChallengeTx := "0xch", SlashTx := "", CreateTime := 0 }

/-- A sample world: configuration loads, the ledger holds tasks 1 (success) and 2 (failed). -/
def sampleWorld (showFailed : Bool) (arg0 : String) (zone : Int) : World :=
  { CP_PATH := "/cp"
    InitConfig := fun _ => none
    showFailed := showFailed
    arg0 := arg0
    GetAllTask := Except.ok [sampleTask 1 3, sampleTask 2 4]
    GetTaskList := fun s =>
      Except.ok (([sampleTask 1 3, sampleTask 2 4]).filter (fun t => t.Status = s))
    GetTaskEntity := fun id =>
      if id = 1 then Except.ok (sampleTask 1 3)
      else if id = 2 then Except.ok (sampleTask 2 4)
      else Except.error "record not found"
    Local := fun _ => zone }

/-- A sample database world: only the file `/cp/provider.db` can be opened, and the
migration of its handle fails. -/
def sampleDbWorld : DbWorld :=
  { pathJoin := fun a b => a ++ "/" ++ b
    gormOpen := fun f => if f = "/cp/provider.db" then Except.ok 7
      else Except.error (none, "unable to open database file")
    autoMigrate := fun _ => some "migration failed" }

/-! ## Lemmas on the two commands -/

/-- The loop of `listCmd` appends one row and one colour entry per task, in order. -/
theorem listLoop_eq (m : Models) (loc : Int → Int) (ts : List TaskEntity) :
    ∀ (i : Nat) (td : List (List String)) (rc : List RowColor),
      listLoop m loc ts i td rc =
        (td ++ ts.map (listRow m loc),
          rc ++ (ts.enumFrom i).map
            (fun p => ({ row := p.1, column := [4], color := listRowColor m p.2 } : RowColor))) := by
  induction ts with
  | nil => intro i td rc; simp [listLoop]
  | cons t rest ih => intro i td rc; simp [listLoop, ih, List.enumFrom]

theorem listTable_data (m : Models) (loc : Int → Int) (ts : List TaskEntity) :
    (listTable m loc ts).data = ts.map (listRow m loc) := by
  simp [listTable, listLoop_eq]

theorem listTable_rowColor (m : Models) (loc : Int → Int) (ts : List TaskEntity) :
    (listTable m loc ts).rowColor =
      ts.enum.map
        (fun p => ({ row := p.1, column := [4], color := listRowColor m p.2 } : RowColor)) := by
  simp [listTable, listLoop_eq, List.enum]

theorem detailRows_eq (m : Models) (loc : Int → Int) (t : TaskEntity) :
    detailRows m loc t =
      [["Task Name:", t.Name], ["ZK Type:", t.ZkType], ["Contract Address:", t.Contract],
        ["Task Status:", m.TaskStatusStr t.Status],
        ["Reward Status:", m.GetRewardStr t.RewardStatus], ["Reward:", t.Reward],
        ["Proof Tx Hash:", t.TxHash]]
      ++ (if t.RewardTx ≠ "" then [["Reward Tx Hash:", t.RewardTx]] else [])
      ++ (if t.ChallengeTx ≠ "" then [["Challenge Tx Hash:", t.ChallengeTx]] else [])
      ++ (if t.SlashTx ≠ "" then [["Slash Tx Hash:", t.SlashTx]] else [])
      ++ [["CreateTime:", formatUnix loc t.CreateTime]] := by
  unfold detailRows
  by_cases h1 : t.RewardTx = "" <;> by_cases h2 : t.ChallengeTx = "" <;>
    by_cases h3 : t.SlashTx = "" <;> simp [h1, h2, h3]

/-! ### `strconv.ParseInt` -/

theorem digitVal_of_digit (c : Char) (h : isDecDigit c = true) :
    digitVal c = some (c.toNat - 48) ∧ c.toNat - 48 < 10 := by
  simp only [isDecDigit, Bool.and_eq_true, decide_eq_true_eq] at h
  refine ⟨by simp [digitVal, h], by omega⟩

theorem digitVal_of_not_digit (c : Char) (h : isDecDigit c = false) :
    digitVal c = none ∨ ∃ d, 10 ≤ d ∧ digitVal c = some d := by
  simp only [isDecDigit, Bool.and_eq_false_iff, decide_eq_false_iff_not] at h
  unfold digitVal
  simp only
  have h1 : ¬ (48 ≤ c.toNat ∧ c.toNat ≤ 57) := by omega
  rw [if_neg h1]
  by_cases h2 : c.toNat < 128 ∧ 97 ≤ (c.toNat ||| 32) ∧ (c.toNat ||| 32) ≤ 122
  · rw [if_pos h2]
    exact Or.inr ⟨_, by omega, rfl⟩
  · rw [if_neg h2]
    exact Or.inl rfl

theorem uintCutoff_eq : uintCutoff = 1844674407370955162 := by
  unfold uintCutoff
  norm_num

/-- The accumulator of the digit fold only grows. -/
theorem foldl_dec_ge (cs : List Char) : ∀ n : Nat,
    n ≤ cs.foldl (fun a c => 10 * a + (c.toNat - 48)) n := by
  induction cs with
  | nil => intro n; simp
  | cons c cs ih =>
    intro n
    simp only [List.foldl_cons]
    exact le_trans (by omega) (ih _)

/-- The loop of `ParseUint` on a string of digits whose value fits 64 bits. -/
theorem parseUintLoop_digits_fit (cs : List Char) : ∀ n : Nat,
    cs.all isDecDigit = true →
    cs.foldl (fun a c => 10 * a + (c.toNat - 48)) n < 2 ^ 64 →
    parseUintLoop cs n = (cs.foldl (fun a c => 10 * a + (c.toNat - 48)) n, none) := by
  induction cs with
  | nil => intro n _ _; simp [parseUintLoop]
  | cons c cs ih =>
    intro n hall hfit
    simp only [List.all_cons, Bool.and_eq_true] at hall
    obtain ⟨hd, hlt⟩ := digitVal_of_digit c hall.1
    have hge := foldl_dec_ge cs (10 * n + (c.toNat - 48))
    simp only [List.foldl_cons] at hfit ⊢
    have hb : 10 * n + (c.toNat - 48) < 2 ^ 64 := lt_of_le_of_lt hge hfit
    have hb2 : 10 * n + (c.toNat - 48) < 18446744073709551616 := by norm_num at hb; exact hb
    unfold parseUintLoop
    rw [hd]
    simp only
    rw [if_neg (by omega), if_neg (by rw [uintCutoff_eq]; omega)]
    have e1 : (n * 10 % 2 ^ 64 + (c.toNat - 48)) % 2 ^ 64 = 10 * n + (c.toNat - 48) := by
      norm_num
      omega
    have e2 : n * 10 % 2 ^ 64 = 10 * n := by
      norm_num
      omega
    rw [e1, e2, if_neg (by norm_num; omega)]
    exact ih _ hall.2 hfit

/-- The loop of `ParseUint` on a string of digits whose value exceeds 64 bits. -/
theorem parseUintLoop_digits_overflow (cs : List Char) : ∀ n : Nat,
    n < 2 ^ 64 → cs.all isDecDigit = true →
    2 ^ 64 ≤ cs.foldl (fun a c => 10 * a + (c.toNat - 48)) n →
    parseUintLoop cs n = (2 ^ 64 - 1, some NumErr.ErrRange) := by
  induction cs with
  | nil =>
    intro n hn _ hov
    simp only [List.foldl_nil] at hov
    omega
  | cons c cs ih =>
    intro n hn hall hov
    simp only [List.all_cons, Bool.and_eq_true] at hall
    obtain ⟨hd, hlt⟩ := digitVal_of_digit c hall.1
    simp only [List.foldl_cons] at hov
    unfold parseUintLoop
    rw [hd]
    simp only
    rw [if_neg (by omega)]
    by_cases hc : n ≥ uintCutoff
    · rw [if_pos hc]
    · rw [if_neg hc]
      rw [uintCutoff_eq] at hc
      have e2 : n * 10 % 2 ^ 64 = 10 * n := by
        norm_num
        omega
      rw [e2]
      by_cases hw : 10 * n + (c.toNat - 48) < 18446744073709551616
      · have e1 : (10 * n + (c.toNat - 48)) % 2 ^ 64 = 10 * n + (c.toNat - 48) := by
          norm_num
          omega
        rw [e1, if_neg (by norm_num; omega)]
        exact ih _ (by norm_num; omega) hall.2 hov
      · rw [if_pos]
        left
        norm_num
        omega

/-- The loop of `ParseUint` reports an error when some character is not a digit. -/
theorem parseUintLoop_not_digits (cs : List Char) : ∀ n : Nat,
    cs.all isDecDigit = false →
    parseUintLoop cs n = (0, some NumErr.ErrSyntax) ∨
      parseUintLoop cs n = (2 ^ 64 - 1, some NumErr.ErrRange) := by
  induction cs with
  | nil => intro n h; simp at h
  | cons c cs ih =>
    intro n h
    unfold parseUintLoop
    cases hc : isDecDigit c
    · rcases digitVal_of_not_digit c hc with h0 | ⟨d, hd10, hd⟩
      · rw [h0]; simp
      · rw [hd]; simp [hd10]
    · obtain ⟨hd, hlt⟩ := digitVal_of_digit c hc
      rw [hd]
      simp only
      rw [if_neg (by omega)]
      have hrest : cs.all isDecDigit = false := by
        simpa [List.all_cons, hc] using h
      split_ifs
      · simp
      · simp
      · exact ih _ hrest

/-- Summary of `strconv.ParseUint(s, 10, 64)`. -/
theorem ParseUint_cases (ds : List Char) :
    (ds ≠ [] ∧ ds.all isDecDigit = true ∧ decValue ds < 2 ^ 64 ∧
        ParseUint ds = (decValue ds, none)) ∨
    (ds ≠ [] ∧ ds.all isDecDigit = true ∧ 2 ^ 64 ≤ decValue ds ∧
        ParseUint ds = (2 ^ 64 - 1, some NumErr.ErrRange)) ∨
    ((ds = [] ∨ ds.all isDecDigit = false) ∧
        (ParseUint ds = (0, some NumErr.ErrSyntax) ∨
          ParseUint ds = (2 ^ 64 - 1, some NumErr.ErrRange))) := by
  by_cases hnil : ds = []
  · right; right
    exact ⟨Or.inl hnil, Or.inl (by simp [ParseUint, hnil])⟩
  · have hP : ParseUint ds = parseUintLoop ds 0 := by simp [ParseUint, hnil]
    rw [hP]
    cases hall : ds.all isDecDigit
    · right; right
      exact ⟨Or.inr rfl, parseUintLoop_not_digits ds 0 hall⟩
    · by_cases hfit : decValue ds < 2 ^ 64
      · left
        exact ⟨hnil, rfl, hfit, parseUintLoop_digits_fit ds 0 hall hfit⟩
      · right; left
        exact ⟨hnil, rfl, not_lt.mp hfit,
          parseUintLoop_digits_overflow ds 0 (by norm_num) hall (not_lt.mp hfit)⟩

theorem ParseInt_cons (s : String) (c0 : Char) (rest : List Char) (hs : s.data = c0 :: rest) :
    ParseInt s =
      (match ParseUint (if c0.toNat = 43 then rest else if c0.toNat = 45 then rest
          else c0 :: rest) with
      | (_, some NumErr.ErrSyntax) => (0, some (GoError.numError "ParseInt" s NumErr.ErrSyntax))
      | (un, _) =>
        if (!decide (c0.toNat = 45)) && decide (un ≥ 2 ^ 63) then
          (toInt64 (((2 ^ 63 : Nat) : Int) - 1),
            some (GoError.numError "ParseInt" s NumErr.ErrRange))
        else if decide (c0.toNat = 45) && decide (un > 2 ^ 63) then
          (toInt64 (-toInt64 ((2 ^ 63 : Nat) : Int)),
            some (GoError.numError "ParseInt" s NumErr.ErrRange))
        else
          (if decide (c0.toNat = 45) = true then toInt64 (-toInt64 (un : Int))
            else toInt64 (un : Int), none)) := by
  unfold ParseInt
  rw [hs]

theorem literalValue_cons (s : String) (c0 : Char) (rest : List Char)
    (hs : s.data = c0 :: rest) :
    literalValue s =
      (if (if c0.toNat = 43 then rest else if c0.toNat = 45 then rest else c0 :: rest) ≠ [] ∧
          (if c0.toNat = 43 then rest else if c0.toNat = 45 then rest
            else c0 :: rest).all isDecDigit = true then
        (if -(2 : Int) ^ 63 ≤
              (if c0.toNat = 45 then
                -(decValue (if c0.toNat = 43 then rest else if c0.toNat = 45 then rest
                    else c0 :: rest) : Int)
              else (decValue (if c0.toNat = 43 then rest else if c0.toNat = 45 then rest
                    else c0 :: rest) : Int)) ∧
            (if c0.toNat = 45 then
                -(decValue (if c0.toNat = 43 then rest else if c0.toNat = 45 then rest
                    else c0 :: rest) : Int)
              else (decValue (if c0.toNat = 43 then rest else if c0.toNat = 45 then rest
                    else c0 :: rest) : Int)) ≤ 2 ^ 63 - 1 then
          some (if c0.toNat = 45 then
                -(decValue (if c0.toNat = 43 then rest else if c0.toNat = 45 then rest
                    else c0 :: rest) : Int)
              else (decValue (if c0.toNat = 43 then rest else if c0.toNat = 45 then rest
                    else c0 :: rest) : Int))
        else none)
      else none) := by
  unfold literalValue
  rw [hs]
  by_cases h43 : c0.toNat = 43 <;> by_cases h45 : c0.toNat = 45 <;> simp [h43, h45]

theorem toInt64_neg_of_le (un : Nat) (h : un ≤ 2 ^ 63) :
    toInt64 (-toInt64 (un : Int)) = -(un : Int) := by
  unfold toInt64
  omega

theorem toInt64_of_lt (un : Nat) (h : un < 2 ^ 63) : toInt64 (un : Int) = (un : Int) := by
  unfold toInt64
  omega

/-- The sign and range stage of `ParseInt` on an unsigned value `un` below `2^64`. -/
theorem ParseInt_tail (neg : Bool) (un : Nat) (s : String) :
    ((-(2 : Int) ^ 63 ≤ (if neg then -(un : Int) else (un : Int)) ∧
        (if neg then -(un : Int) else (un : Int)) ≤ 2 ^ 63 - 1) →
      (if (!neg) && decide (un ≥ 2 ^ 63) then
          (toInt64 (((2 ^ 63 : Nat) : Int) - 1),
            some (GoError.numError "ParseInt" s NumErr.ErrRange))
        else if neg && decide (un > 2 ^ 63) then
          (toInt64 (-toInt64 ((2 ^ 63 : Nat) : Int)),
            some (GoError.numError "ParseInt" s NumErr.ErrRange))
        else
          (if neg = true then toInt64 (-toInt64 (un : Int)) else toInt64 (un : Int), none)) =
        ((if neg then -(un : Int) else (un : Int)), none)) ∧
    (¬ (-(2 : Int) ^ 63 ≤ (if neg then -(un : Int) else (un : Int)) ∧
        (if neg then -(un : Int) else (un : Int)) ≤ 2 ^ 63 - 1) →
      ∃ v, (if (!neg) && decide (un ≥ 2 ^ 63) then
          (toInt64 (((2 ^ 63 : Nat) : Int) - 1),
            some (GoError.numError "ParseInt" s NumErr.ErrRange))
        else if neg && decide (un > 2 ^ 63) then
          (toInt64 (-toInt64 ((2 ^ 63 : Nat) : Int)),
            some (GoError.numError "ParseInt" s NumErr.ErrRange))
        else
          (if neg = true then toInt64 (-toInt64 (un : Int)) else toInt64 (un : Int), none)) =
        (v, some (GoError.numError "ParseInt" s NumErr.ErrRange))) := by
  cases neg
  · by_cases hr : 9223372036854775808 ≤ un
    · refine ⟨fun h => ?_, fun _ => ⟨_, by rw [if_pos (by simpa using hr)]⟩⟩
      simp only [Bool.false_eq_true, if_false] at h
      omega
    · refine ⟨fun _ => ?_, fun h => ?_⟩
      · have hlt : un < 9223372036854775808 := by omega
        simp [hlt, toInt64_of_lt un (by omega)]
      · simp only [Bool.false_eq_true, if_false] at h
        omega
  · by_cases hr : 9223372036854775808 < un
    · refine ⟨fun h => ?_,
        fun _ => ⟨_, by rw [if_neg (by simp), if_pos (by simpa using hr)]⟩⟩
      simp only [if_true] at h
      omega
    · refine ⟨fun _ => ?_, fun h => ?_⟩
      · have hle : un ≤ 9223372036854775808 := by omega
        simp [hle, toInt64_neg_of_le un (by omega)]
      · simp only [if_true] at h
        omega

/-- The function `ParseInt` accepts exactly the base-10 signed 64-bit literals, with their value. -/
theorem ParseInt_literal (s : String) :
    (∀ n, literalValue s = some n → ParseInt s = (n, none)) ∧
    (literalValue s = none →
      ∃ v k, ParseInt s = (v, some (GoError.numError "ParseInt" s k))) := by
  cases hs : s.data with
  | nil =>
    constructor
    · intro n h
      simp [literalValue, hs] at h
    · intro _
      exact ⟨0, NumErr.ErrSyntax, by simp [ParseInt, hs]⟩
  | cons c0 rest =>
    rw [ParseInt_cons s c0 rest hs, literalValue_cons s c0 rest hs]
    generalize (if c0.toNat = 43 then rest else if c0.toNat = 45 then rest else c0 :: rest) = ds
    have hnn : (0 : Int) ≤ (decValue ds : Int) := Int.ofNat_nonneg _
    have hlit0 : (ds = [] ∨ ds.all isDecDigit = false) →
        ¬ (ds ≠ [] ∧ ds.all isDecDigit = true) := by
      rintro (h | h) <;> simp [h]
    rcases ParseUint_cases ds with ⟨hne, hall, hfit, hP⟩ | ⟨hne, hall, hov, hP⟩ | ⟨hbad, hP | hP⟩
    · rw [hP, if_pos ⟨hne, hall⟩]
      have ht := ParseInt_tail (decide (c0.toNat = 45)) (decValue ds) s
      simp only [decide_eq_true_eq] at ht ⊢
      constructor
      · intro n h
        by_cases hr : (-(2 : Int) ^ 63 ≤ (if c0.toNat = 45 then -(decValue ds : Int)
            else (decValue ds : Int)) ∧
            (if c0.toNat = 45 then -(decValue ds : Int) else (decValue ds : Int)) ≤ 2 ^ 63 - 1)
        · rw [if_pos hr] at h
          rw [← Option.some.inj h]
          exact ht.1 hr
        · rw [if_neg hr] at h
          exact absurd h (by simp)
      · intro h
        by_cases hr : (-(2 : Int) ^ 63 ≤ (if c0.toNat = 45 then -(decValue ds : Int)
            else (decValue ds : Int)) ∧
            (if c0.toNat = 45 then -(decValue ds : Int) else (decValue ds : Int)) ≤ 2 ^ 63 - 1)
        · rw [if_pos hr] at h
          exact absurd h (by simp)
        · obtain ⟨v, hv⟩ := ht.2 hr
          exact ⟨v, _, hv⟩
    · rw [hP, if_pos ⟨hne, hall⟩]
      have ht := ParseInt_tail (decide (c0.toNat = 45)) (2 ^ 64 - 1) s
      simp only [decide_eq_true_eq] at ht ⊢
      have hr : ¬ (-(2 : Int) ^ 63 ≤ (if c0.toNat = 45 then -(decValue ds : Int)
            else (decValue ds : Int)) ∧
            (if c0.toNat = 45 then -(decValue ds : Int) else (decValue ds : Int)) ≤ 2 ^ 63 - 1) := by
        split_ifs <;> omega
      have hr2 : ¬ (-(2 : Int) ^ 63 ≤ (if c0.toNat = 45 then -((2 ^ 64 - 1 : Nat) : Int)
            else ((2 ^ 64 - 1 : Nat) : Int)) ∧
            (if c0.toNat = 45 then -((2 ^ 64 - 1 : Nat) : Int) else ((2 ^ 64 - 1 : Nat) : Int))
              ≤ 2 ^ 63 - 1) := by
        split_ifs <;> omega
      rw [if_neg hr]
      obtain ⟨v, hv⟩ := ht.2 hr2
      exact ⟨fun n h => by simp at h, fun _ => ⟨v, _, hv⟩⟩
    · rw [hP, if_neg (hlit0 hbad)]
      exact ⟨fun n h => by simp at h, fun _ => ⟨_, _, rfl⟩⟩
    · rw [hP, if_neg (hlit0 hbad)]
      have ht := ParseInt_tail (decide (c0.toNat = 45)) (2 ^ 64 - 1) s
      simp only [decide_eq_true_eq] at ht ⊢
      have hr2 : ¬ (-(2 : Int) ^ 63 ≤ (if c0.toNat = 45 then -((2 ^ 64 - 1 : Nat) : Int)
            else ((2 ^ 64 - 1 : Nat) : Int)) ∧
            (if c0.toNat = 45 then -((2 ^ 64 - 1 : Nat) : Int) else ((2 ^ 64 - 1 : Nat) : Int))
              ≤ 2 ^ 63 - 1) := by
        split_ifs <;> omega
      obtain ⟨v, hv⟩ := ht.2 hr2
      exact ⟨fun n h => by simp at h, fun _ => ⟨v, _, hv⟩⟩
/-! ### `strings.TrimSpace` -/

theorem dropWhile_all_of_all (p : Char → Bool) (l : List Char)
    (h : ∀ x ∈ l.dropWhile p, p x = true) : l.dropWhile p = [] := by
  cases hd : l.dropWhile p with
  | nil => rfl
  | cons a t =>
    have hne : l.dropWhile p ≠ [] := by simp [hd]
    have h1 := List.head_dropWhile_not p l hne
    have h2 : (l.dropWhile p).head hne = a := by simp [hd]
    rw [h2] at h1
    have h3 := h a (by simp [hd])
    rw [h1] at h3
    exact absurd h3 (by simp)

/-- The string `TrimSpace s` is empty exactly when `s` consists of white space only. -/
theorem TrimSpace_eq_empty_iff (s : String) :
    TrimSpace s = "" ↔ ∀ c ∈ s.data, isSpace c = true := by
  unfold TrimSpace
  constructor
  · intro h
    have h1 : ((s.data.dropWhile isSpace).reverse.dropWhile isSpace).reverse = [] := by
      have := congrArg String.data h
      simpa using this
    have h2 : (s.data.dropWhile isSpace).reverse.dropWhile isSpace = [] := by
      simpa using h1
    rw [List.dropWhile_eq_nil_iff] at h2
    have h3 : s.data.dropWhile isSpace = [] :=
      dropWhile_all_of_all isSpace s.data (fun x hx => h2 x (by simpa using hx))
    exact List.dropWhile_eq_nil_iff.mp h3
  · intro h
    have h3 : s.data.dropWhile isSpace = [] := List.dropWhile_eq_nil_iff.mpr h
    rw [h3]
    rfl

theorem not_isSpace_of_digit (c : Char) (h : isDecDigit c = true) : isSpace c = false := by
  simp only [isDecDigit, Bool.and_eq_true, decide_eq_true_eq] at h
  unfold isSpace
  simp only [Bool.or_eq_false_iff, Bool.and_eq_false_iff, decide_eq_false_iff_not]
  omega

/-- A literal contains a digit, so it is not blank. -/
theorem TrimSpace_ne_empty_of_literal (s : String) (n : Int) (h : literalValue s = some n) :
    TrimSpace s ≠ "" := by
  intro hb
  rw [TrimSpace_eq_empty_iff] at hb
  cases hs : s.data with
  | nil => simp [literalValue, hs] at h
  | cons c0 rest =>
    rw [literalValue_cons s c0 rest hs] at h
    rw [hs] at hb
    have hsub : ∀ x ∈ (if c0.toNat = 43 then rest else if c0.toNat = 45 then rest
        else c0 :: rest), x ∈ c0 :: rest := by
      intro x hx
      split_ifs at hx
      · exact List.mem_cons_of_mem _ hx
      · exact List.mem_cons_of_mem _ hx
      · exact hx
    revert h hsub
    generalize (if c0.toNat = 43 then rest else if c0.toNat = 45 then rest else c0 :: rest) = ds
    intro h hsub
    by_cases hl : ds ≠ [] ∧ ds.all isDecDigit = true
    · obtain ⟨hne, hall⟩ := hl
      obtain ⟨a, t, rfl⟩ := List.exists_cons_of_ne_nil hne
      simp only [List.all_cons, Bool.and_eq_true] at hall
      have h1 := not_isSpace_of_digit a hall.1
      have h2 := hb a (hsub a (by simp))
      rw [h1] at h2
      exact absurd h2 (by simp)
    · rw [if_neg hl] at h
      exact absurd h (by simp)

/-! ### `strconv.Itoa` -/

theorem digitChar_digit (d : Nat) (h : d < 10) :
    isDecDigit (Nat.digitChar d) = true ∧ (Nat.digitChar d).toNat - 48 = d := by
  interval_cases d <;> exact ⟨rfl, rfl⟩

/-- The digits that `Nat.toDigitsCore` puts in front of `ds` are decimal digits whose value
is `n`. -/
theorem toDigitsCore_spec (fuel : Nat) : ∀ (n : Nat) (ds : List Char), n < fuel →
    ∃ pre, Nat.toDigitsCore 10 fuel n ds = pre ++ ds ∧ pre ≠ [] ∧
      pre.all isDecDigit = true ∧ decValue pre = n := by
  induction fuel with
  | zero => intro n ds h; omega
  | succ fuel ih =>
    intro n ds h
    obtain ⟨hdig, hval⟩ := digitChar_digit (n % 10) (Nat.mod_lt _ (by norm_num))
    unfold Nat.toDigitsCore
    simp only
    by_cases h0 : n / 10 = 0
    · rw [if_pos h0]
      refine ⟨[Nat.digitChar (n % 10)], rfl, by simp, by simp [hdig], ?_⟩
      simp only [decValue, List.foldl_cons, List.foldl_nil, hval]
      omega
    · rw [if_neg h0]
      obtain ⟨pre, hpre, hne, hall, hv⟩ := ih (n / 10) (Nat.digitChar (n % 10) :: ds) (by omega)
      refine ⟨pre ++ [Nat.digitChar (n % 10)], by simp [hpre], by simp, ?_, ?_⟩
      · simp [List.all_append, hall, hdig]
      · unfold decValue at hv ⊢
        rw [List.foldl_append, hv]
        simp only [List.foldl_cons, List.foldl_nil, hval]
        omega

theorem toDigits_spec (n : Nat) :
    Nat.toDigits 10 n ≠ [] ∧ (Nat.toDigits 10 n).all isDecDigit = true ∧
      decValue (Nat.toDigits 10 n) = n := by
  obtain ⟨pre, hpre, hne, hall, hv⟩ := toDigitsCore_spec (n + 1) n [] (by omega)
  have : Nat.toDigits 10 n = pre := by simp [Nat.toDigits, hpre]
  rw [this]
  exact ⟨hne, hall, hv⟩

/-- Reading back what `Itoa` printed gives the number, for every `int64` value. -/
theorem literalValue_Itoa (n : Int) (h1 : -(2 : Int) ^ 63 ≤ n) (h2 : n < 2 ^ 63) :
    literalValue (Itoa n) = some n := by
  cases n with
  | ofNat k =>
    obtain ⟨hne, hall, hv⟩ := toDigits_spec k
    obtain ⟨a, t, hat⟩ := List.exists_cons_of_ne_nil hne
    have hs : (Itoa (Int.ofNat k)).data = a :: t := by simp [Itoa, natDec, hat]
    rw [literalValue_cons _ a t hs]
    have ha : isDecDigit a = true := by
      rw [hat] at hall
      simp only [List.all_cons, Bool.and_eq_true] at hall
      exact hall.1
    simp only [isDecDigit, Bool.and_eq_true, decide_eq_true_eq] at ha
    have h43 : ¬ a.toNat = 43 := by omega
    have h45 : ¬ a.toNat = 45 := by omega
    simp only [h43, h45, if_false]
    rw [← hat, if_pos ⟨hne, hall⟩, hv]
    have h3 : (k : Int) < 2 ^ 63 := h2
    rw [if_pos (by constructor <;> omega)]
    rfl
  | negSucc k =>
    obtain ⟨hne, hall, hv⟩ := toDigits_spec (k + 1)
    have hs : (Itoa (Int.negSucc k)).data = Char.ofNat 45 :: Nat.toDigits 10 (k + 1) := by
      simp [Itoa, natDec]
    rw [literalValue_cons _ _ _ hs]
    have h45 : (Char.ofNat 45).toNat = 45 := rfl
    have h43 : ¬ (Char.ofNat 45).toNat = 43 := by decide
    simp only [h45, show ¬ ((45 : Nat) = 43) by decide, if_false, if_true]
    rw [if_pos ⟨hne, hall⟩, hv]
    have h3 : -(2 : Int) ^ 63 ≤ Int.negSucc k := h1
    have h4 : Int.negSucc k = -((k + 1 : Nat) : Int) := rfl
    rw [if_pos (by constructor <;> omega)]
    rw [h4]

theorem rowId_listRow (m : Models) (loc : Int → Int) (t : TaskEntity)
    (h1 : -(2 : Int) ^ 63 ≤ t.Id) (h2 : t.Id < 2 ^ 63) : rowId (listRow m loc t) = t.Id := by
  simp [rowId, listRow, (ParseInt_literal _).1 _ (literalValue_Itoa t.Id h1 h2)]

/-! ### Decimal digits -/

theorem toDigitsCore_fuel (f1 : Nat) : ∀ (f2 n : Nat) (ds : List Char), n < f1 → n < f2 →
    Nat.toDigitsCore 10 f1 n ds = Nat.toDigitsCore 10 f2 n ds := by
  induction f1 with
  | zero => intro f2 n ds h; omega
  | succ f1 ih =>
    intro f2 n ds h1 h2
    cases f2 with
    | zero => omega
    | succ f2 =>
      simp only [Nat.toDigitsCore]
      by_cases h0 : n / 10 = 0
      · simp [h0]
      · simp only [h0, if_false]
        exact ih f2 (n / 10) _ (by omega) (by omega)

theorem toDigitsCore_append (f : Nat) : ∀ (n : Nat) (ds : List Char),
    Nat.toDigitsCore 10 f n ds = Nat.toDigitsCore 10 f n [] ++ ds := by
  induction f with
  | zero => intro n ds; simp [Nat.toDigitsCore]
  | succ f ih =>
    intro n ds
    simp only [Nat.toDigitsCore]
    by_cases h0 : n / 10 = 0
    · simp [h0]
    · simp only [h0, if_false]
      rw [ih (n / 10) (Nat.digitChar (n % 10) :: ds), ih (n / 10) [Nat.digitChar (n % 10)]]
      simp

theorem toDigits_small (n : Nat) (h : n < 10) : Nat.toDigits 10 n = [Nat.digitChar n] := by
  have h0 : n / 10 = 0 := by omega
  have h1 : n % 10 = n := by omega
  simp [Nat.toDigits, Nat.toDigitsCore, h0, h1]

theorem toDigits_step (n : Nat) (h : 10 ≤ n) :
    Nat.toDigits 10 n = Nat.toDigits 10 (n / 10) ++ [Nat.digitChar (n % 10)] := by
  have h0 : ¬ n / 10 = 0 := by omega
  have e : Nat.toDigits 10 n = Nat.toDigitsCore 10 n (n / 10) [Nat.digitChar (n % 10)] := by
    unfold Nat.toDigits
    rw [Nat.toDigitsCore]
    simp [h0]
  rw [e, toDigitsCore_append, toDigitsCore_fuel n (n / 10 + 1) (n / 10) [] (by omega) (by omega)]
  rfl

/-- Two-digit fields: a number below 100 is printed as its tens digit and its units digit. -/
theorem appendInt_two (n : Int) (h0 : 0 ≤ n) (h1 : n < 100) :
    appendInt n 2 =
      String.mk [Nat.digitChar (n.toNat / 10), Nat.digitChar (n.toNat % 10)] := by
  obtain ⟨k, rfl⟩ := Int.eq_ofNat_of_zero_le h0
  have hk : k < 100 := by omega
  simp only [appendInt, padNat, Int.toNat_ofNat]
  by_cases hs : k < 10
  · rw [toDigits_small k hs]
    have e1 : k / 10 = 0 := by omega
    have e2 : k % 10 = k := by omega
    simp [e1, e2, show Nat.digitChar 0 = Char.ofNat 48 from rfl]
  · rw [toDigits_step k (by omega), toDigits_small (k / 10) (by omega)]
    simp

/-- Four-digit years: a year from 0 to 9999 is printed as its four decimal digits. -/
theorem appendInt_four (n : Int) (h0 : 0 ≤ n) (h1 : n < 10000) :
    appendInt n 4 =
      String.mk [Nat.digitChar (n.toNat / 1000), Nat.digitChar (n.toNat / 100 % 10),
        Nat.digitChar (n.toNat / 10 % 10), Nat.digitChar (n.toNat % 10)] := by
  obtain ⟨k, rfl⟩ := Int.eq_ofNat_of_zero_le h0
  have hk : k < 10000 := by omega
  simp only [appendInt, padNat, Int.toNat_ofNat]
  by_cases hs1 : k < 10
  · rw [toDigits_small k hs1]
    have e1 : k / 1000 = 0 := by omega
    have e2 : k / 100 % 10 = 0 := by omega
    have e3 : k / 10 % 10 = 0 := by omega
    have e4 : k % 10 = k := by omega
    simp [e1, e2, e3, e4, show Nat.digitChar 0 = Char.ofNat 48 from rfl]
  · by_cases hs2 : k < 100
    · rw [toDigits_step k (by omega), toDigits_small (k / 10) (by omega)]
      have e1 : k / 1000 = 0 := by omega
      have e2 : k / 100 % 10 = 0 := by omega
      have e3 : k / 10 % 10 = k / 10 := by omega
      simp [e1, e2, e3, show Nat.digitChar 0 = Char.ofNat 48 from rfl]
    · by_cases hs3 : k < 1000
      · rw [toDigits_step k (by omega), toDigits_step (k / 10) (by omega),
          toDigits_small (k / 10 / 10) (by omega)]
        have e1 : k / 1000 = 0 := by omega
        have e2 : k / 100 % 10 = k / 10 / 10 := by omega
        simp [e1, e2, show Nat.digitChar 0 = Char.ofNat 48 from rfl]
      · rw [toDigits_step k (by omega), toDigits_step (k / 10) (by omega),
          toDigits_step (k / 10 / 10) (by omega), toDigits_small (k / 10 / 10 / 10) (by omega)]
        have e1 : k / 1000 = k / 10 / 10 / 10 := by omega
        have e2 : k / 100 % 10 = k / 10 / 10 % 10 := by omega
        simp [e1, e2, show Nat.digitChar 0 = Char.ofNat 48 from rfl]
/-! ### The calendar -/

theorem isLeapYear_iff (y : Int) :
    isLeapYear y = true ↔ (y % 4 = 0 ∧ (y % 100 ≠ 0 ∨ y % 400 = 0)) := by
  simp [isLeapYear]

set_option maxHeartbeats 4000000 in
/-- The steps of `civilFromDays`, named one by one, give a valid date whose day number is
the input. -/
theorem civil_rel (z a r n100 n4 r4 n1 doy mp d m y : Int)
    (h1 : a = (z + 719468) / 146097) (h2 : r = (z + 719468) % 146097)
    (h3 : n100 = if r / 36524 = 4 then 3 else r / 36524)
    (h4 : n4 = (r - 36524 * n100) / 1461) (h5 : r4 = (r - 36524 * n100) % 1461)
    (h6 : n1 = if r4 / 365 = 4 then 3 else r4 / 365)
    (h7 : doy = r4 - 365 * n1) (h8 : mp = (5 * doy + 2) / 153)
    (h9 : d = doy - (153 * mp + 2) / 5 + 1)
    (h10 : m = if mp < 10 then mp + 3 else mp - 9)
    (h11 : y = if m ≤ 2 then 400 * a + 100 * n100 + 4 * n4 + n1 + 1
      else 400 * a + 100 * n100 + 4 * n4 + n1) :
    1 ≤ m ∧ m ≤ 12 ∧ 1 ≤ d ∧ d ≤ daysInMonth y m ∧ dayNumber y m d = z := by
  have hr : 0 ≤ r ∧ r < 146097 := by omega
  have hn100 : 0 ≤ n100 ∧ n100 ≤ 3 := by split_ifs at h3 <;> omega
  have hr100 : 0 ≤ r - 36524 * n100 ∧ r - 36524 * n100 ≤ 36524 ∧
      (n100 < 3 → r - 36524 * n100 ≤ 36523) := by split_ifs at h3 <;> omega
  have hn4 : 0 ≤ n4 ∧ n4 ≤ 24 := by omega
  have hr4 : 0 ≤ r4 ∧ r4 ≤ 1460 ∧ r - 36524 * n100 = 1461 * n4 + r4 := by omega
  have hn1 : 0 ≤ n1 ∧ n1 ≤ 3 := by split_ifs at h6 <;> omega
  have hdoy : 0 ≤ doy ∧ doy ≤ 365 ∧ (doy = 365 → n1 = 3 ∧ (n4 ≠ 24 ∨ n100 = 3)) := by
    split_ifs at h6 <;> omega
  have hsum : z + 719468 = 146097 * a + 36524 * n100 + 1461 * n4 + 365 * n1 + doy := by omega
  have hY4 : (400 * a + 100 * n100 + 4 * n4 + n1) / 4 = 100 * a + 25 * n100 + n4 := by omega
  have hY100 : (400 * a + 100 * n100 + 4 * n4 + n1) / 100 = 4 * a + n100 := by omega
  have hY400 : (400 * a + 100 * n100 + 4 * n4 + n1) / 400 = a := by omega
  have hcases : mp = 0 ∨ mp = 1 ∨ mp = 2 ∨ mp = 3 ∨ mp = 4 ∨ mp = 5 ∨ mp = 6 ∨ mp = 7 ∨
      mp = 8 ∨ mp = 9 ∨ mp = 10 ∨ mp = 11 := by omega
  clear h1 h2 h3 h4 h5 h6 h7 hr hr100 hr4
  simp only [dayNumber, daysBeforeYear, daysBeforeMonth, daysInMonth, isLeapYear_iff]
  rcases hcases with hm | hm | hm | hm | hm | hm | hm | hm | hm | hm | hm | hm <;>
    (rw [hm] at h8 h9 h10
     norm_num at h10
     subst h10
     norm_num at h11
     subst h11
     norm_num
     omega)

/-- The date computed by `civilFromDays` is valid and is the date of the given day. -/
theorem civilFromDays_spec (z : Int) :
    1 ≤ (civilFromDays z).2.1 ∧ (civilFromDays z).2.1 ≤ 12 ∧ 1 ≤ (civilFromDays z).2.2 ∧
    (civilFromDays z).2.2 ≤ daysInMonth (civilFromDays z).1 (civilFromDays z).2.1 ∧
    dayNumber (civilFromDays z).1 (civilFromDays z).2.1 (civilFromDays z).2.2 = z :=
  civil_rel z _ _ _ _ _ _ _ _ _ _ _ rfl rfl rfl rfl rfl rfl rfl rfl rfl rfl rfl

theorem daysInMonth_le (y m : Int) : 28 ≤ daysInMonth y m ∧ daysInMonth y m ≤ 31 := by
  unfold daysInMonth
  split_ifs <;> omega

/-- The clock computed by `wallClock` reads the local count of seconds. -/
theorem wallClock_reading (loc : Int → Int) (sec : Int) :
    isCivilReading (wallClock loc sec) (wallSeconds loc sec) = true := by
  have h := civilFromDays_spec
    ((sec + loc sec + unixToAbsolute) % 18446744073709551616 / 86400 - 106751991073400)
  obtain ⟨h1, h2, h3, h4, h5⟩ := h
  simp only [isCivilReading, wallClock, wallSeconds, Bool.and_eq_true, decide_eq_true_eq]
  refine ⟨⟨⟨⟨⟨⟨⟨⟨⟨⟨h1, h2⟩, h3⟩, h4⟩, ?_⟩, ?_⟩, ?_⟩, ?_⟩, ?_⟩, ?_⟩, ?_⟩
  · omega
  · omega
  · omega
  · omega
  · omega
  · omega
  · rw [h5]
    unfold unixToAbsolute
    omega
/-- In the years 0 to 9999 `formatUnix` prints the 19 characters of `clockText`. -/
theorem formatUnix_layout (loc : Int → Int) (sec : Int)
    (hy0 : 0 ≤ (wallClock loc sec).year) (hy1 : (wallClock loc sec).year ≤ 9999) :
    formatUnix loc sec = clockText (wallClock loc sec) := by
  have h := wallClock_reading loc sec
  simp only [isCivilReading, Bool.and_eq_true, decide_eq_true_eq] at h
  obtain ⟨⟨⟨⟨⟨⟨⟨⟨⟨⟨h1, h2⟩, h3⟩, h4⟩, h5⟩, h6⟩, h7⟩, h8⟩, h9⟩, h10⟩, _⟩ := h
  have hdim := daysInMonth_le (wallClock loc sec).year (wallClock loc sec).month
  unfold formatUnix clockText
  simp only
  rw [appendInt_four _ hy0 (by omega), appendInt_two _ (by omega) (by omega),
    appendInt_two (wallClock loc sec).day (by omega) (by omega),
    appendInt_two (wallClock loc sec).hour h5 (by omega),
    appendInt_two (wallClock loc sec).minute h7 (by omega),
    appendInt_two (wallClock loc sec).second h9 (by omega)]
  rfl

/-- Below the absolute zero of package `time` the count of seconds wraps: one second
before it, the clock shows the last second that 64 bits can hold. -/
theorem formatUnix_wraps :
    formatUnix (fun _ => 0) (-9223372028741760001) = "292277026854-01-07 07:00:15" ∧
    formatUnix (fun _ => 0) (-9223372028741760000) = "-292277022400-03-01 00:00:00" ∧
    formatUnix (fun _ => 0) 9223372036854775807 = "292277026596-12-04 15:30:07" := by
  decide

theorem wallSeconds_eq (loc : Int → Int) (sec : Int)
    (h0 : -unixToAbsolute ≤ sec + loc sec)
    (h1 : sec + loc sec < 18446744073709551616 - unixToAbsolute) :
    wallSeconds loc sec = sec + loc sec := by
  unfold wallSeconds
  unfold unixToAbsolute at h0 h1 ⊢
  omega

theorem daysBeforeYear_succ (y : Int) :
    daysBeforeYear (y + 1) = daysBeforeYear y + 365 + (if isLeapYear y = true then 1 else 0) := by
  simp only [daysBeforeYear, isLeapYear_iff]
  split_ifs <;> omega

theorem daysBeforeYear_mono (y y2 : Int) (h : y ≤ y2) : daysBeforeYear y ≤ daysBeforeYear y2 := by
  simp only [daysBeforeYear]
  omega

/-- A valid date lies within its year. -/
theorem dayNumber_in_year (y m d : Int) (hm0 : 1 ≤ m) (hm1 : m ≤ 12) (hd0 : 1 ≤ d)
    (hd1 : d ≤ daysInMonth y m) :
    daysBeforeYear y ≤ dayNumber y m d ∧ dayNumber y m d < daysBeforeYear (y + 1) := by
  rw [daysBeforeYear_succ]
  simp only [dayNumber, daysBeforeMonth, daysInMonth] at hd1 ⊢
  have hc : m = 1 ∨ m = 2 ∨ m = 3 ∨ m = 4 ∨ m = 5 ∨ m = 6 ∨ m = 7 ∨ m = 8 ∨ m = 9 ∨ m = 10 ∨
      m = 11 ∨ m = 12 := by omega
  rcases hc with rfl | rfl | rfl | rfl | rfl | rfl | rfl | rfl | rfl | rfl | rfl | rfl <;>
    (norm_num at hd1 ⊢; split_ifs at hd1 ⊢ <;> omega)
/-- Within a year, an earlier month gives an earlier day. -/
theorem month_lt (y m d m2 d2 : Int) (hm0 : 1 ≤ m) (hm : m < m2) (hm2 : m2 ≤ 12)
    (hd1 : d ≤ daysInMonth y m) (hd2 : 1 ≤ d2) :
    daysBeforeMonth y m + d < daysBeforeMonth y m2 + d2 := by
  have hA : daysBeforeMonth y m + daysInMonth y m = daysBeforeMonth y (m + 1) := by
    have hc : m = 1 ∨ m = 2 ∨ m = 3 ∨ m = 4 ∨ m = 5 ∨ m = 6 ∨ m = 7 ∨ m = 8 ∨ m = 9 ∨
        m = 10 ∨ m = 11 := by omega
    simp only [daysBeforeMonth, daysInMonth]
    rcases hc with rfl | rfl | rfl | rfl | rfl | rfl | rfl | rfl | rfl | rfl | rfl <;>
      (norm_num <;> first | omega | (split_ifs <;> omega))
  have hB : daysBeforeMonth y (m + 1) ≤ daysBeforeMonth y m2 := by
    have hc : m = 1 ∨ m = 2 ∨ m = 3 ∨ m = 4 ∨ m = 5 ∨ m = 6 ∨ m = 7 ∨ m = 8 ∨ m = 9 ∨
        m = 10 ∨ m = 11 := by omega
    have hc2 : m2 = 2 ∨ m2 = 3 ∨ m2 = 4 ∨ m2 = 5 ∨ m2 = 6 ∨ m2 = 7 ∨ m2 = 8 ∨ m2 = 9 ∨
        m2 = 10 ∨ m2 = 11 ∨ m2 = 12 := by omega
    simp only [daysBeforeMonth]
    rcases hc with rfl | rfl | rfl | rfl | rfl | rfl | rfl | rfl | rfl | rfl | rfl <;>
      rcases hc2 with rfl | rfl | rfl | rfl | rfl | rfl | rfl | rfl | rfl | rfl | rfl <;>
      first
        | (exfalso; omega)
        | (norm_num <;> omega)
  omega

/-- Two valid dates with the same day number are the same date. -/
theorem dayNumber_inj (y m d y2 m2 d2 : Int)
    (hm0 : 1 ≤ m) (hm1 : m ≤ 12) (hd0 : 1 ≤ d) (hd1 : d ≤ daysInMonth y m)
    (km0 : 1 ≤ m2) (km1 : m2 ≤ 12) (kd0 : 1 ≤ d2) (kd1 : d2 ≤ daysInMonth y2 m2)
    (h : dayNumber y m d = dayNumber y2 m2 d2) : y = y2 ∧ m = m2 ∧ d = d2 := by
  have b1 := dayNumber_in_year y m d hm0 hm1 hd0 hd1
  have b2 := dayNumber_in_year y2 m2 d2 km0 km1 kd0 kd1
  have hy : y = y2 := by
    rcases lt_trichotomy y y2 with hlt | heq | hgt
    · have := daysBeforeYear_mono (y + 1) y2 (by omega)
      omega
    · exact heq
    · have := daysBeforeYear_mono (y2 + 1) y (by omega)
      omega
  subst hy
  have hmm : m = m2 := by
    rcases lt_trichotomy m m2 with hlt | heq | hgt
    · have := month_lt y m d m2 d2 hm0 hlt km1 hd1 kd0
      simp only [dayNumber] at h
      omega
    · exact heq
    · have := month_lt y m2 d2 m d km0 hgt hm1 kd1 hd0
      simp only [dayNumber] at h
      omega
  subst hmm
  simp only [dayNumber] at h
  exact ⟨rfl, rfl, by omega⟩

/-- The reading of an instant is unique: two clocks that read the same count of seconds
are equal. -/
theorem isCivilReading_unique (c c2 : Clock) (s : Int)
    (h1 : isCivilReading c s = true) (h2 : isCivilReading c2 s = true) : c = c2 := by
  simp only [isCivilReading, Bool.and_eq_true, decide_eq_true_eq] at h1 h2
  obtain ⟨⟨⟨⟨⟨⟨⟨⟨⟨⟨a1, a2⟩, a3⟩, a4⟩, a5⟩, a6⟩, a7⟩, a8⟩, a9⟩, a10⟩, a11⟩ := h1
  obtain ⟨⟨⟨⟨⟨⟨⟨⟨⟨⟨b1, b2⟩, b3⟩, b4⟩, b5⟩, b6⟩, b7⟩, b8⟩, b9⟩, b10⟩, b11⟩ := h2
  have hday : dayNumber c.year c.month c.day = dayNumber c2.year c2.month c2.day := by omega
  obtain ⟨e1, e2, e3⟩ := dayNumber_inj _ _ _ _ _ _ a1 a2 a3 a4 b1 b2 b3 b4 hday
  have e4 : c.hour = c2.hour := by omega
  have e5 : c.minute = c2.minute := by omega
  have e6 : c.second = c2.second := by omega
  cases c
  cases c2
  simp only [Clock.mk.injEq]
  exact ⟨e1, e2, e3, e4, e5, e6⟩
/-! ### Dispatch attempts -/

/-- A dispatch attempt for a RECEIVED task with a free slot starts the job. -/
theorem dispatch_received (quota : Nat) (s : Provider) (id : Nat) (t : LedgerTask)
    (ht : s.ledger[id]? = some t) (hs : t.status = TaskStatus.RECEIVED)
    (hfree : s.jobs.length < quota) :
    dispatch quota s id =
      (DispatchResult.Started,
        { ledger := s.ledger.set id { t with status := TaskStatus.RUNNING },
          jobs := id :: s.jobs }) := by
  unfold dispatch updateStatus
  rw [if_neg (by omega), ht]
  simp [hs]

/-- A dispatch attempt for a task that is not RECEIVED changes nothing and answers Busy or
Conflict. -/
theorem dispatch_not_received (quota : Nat) (s : Provider) (id : Nat) (t : LedgerTask)
    (ht : s.ledger[id]? = some t) (hs : t.status ≠ TaskStatus.RECEIVED) :
    (dispatch quota s id).2 = s ∧
    ((dispatch quota s id).1 = DispatchResult.Conflict ∨
      (dispatch quota s id).1 = DispatchResult.Busy) := by
  unfold dispatch updateStatus
  by_cases hq : quota ≤ s.jobs.length
  · rw [if_pos hq]
    exact ⟨rfl, Or.inr rfl⟩
  · rw [if_neg hq, ht]
    simp [hs]

/-- Attempts for a task that is not RECEIVED: nothing changes, every answer is Busy or
Conflict. -/
theorem dispatchN_not_received (quota : Nat) (id : Nat) (n : Nat) : ∀ (s : Provider)
    (t : LedgerTask), s.ledger[id]? = some t → t.status ≠ TaskStatus.RECEIVED →
    (dispatchN quota id n s).2 = s ∧ (dispatchN quota id n s).1.length = n ∧
    (∀ r ∈ (dispatchN quota id n s).1,
      r = DispatchResult.Conflict ∨ r = DispatchResult.Busy) := by
  induction n with
  | zero => intro s t _ _; simp [dispatchN]
  | succ n ih =>
    intro s t ht hs
    obtain ⟨h1, h2⟩ := dispatch_not_received quota s id t ht hs
    have ih2 := ih s t ht hs
    simp only [dispatchN, h1]
    refine ⟨ih2.1, by simp [ih2.2.1], ?_⟩
    intro r hr
    rcases List.mem_cons.mp hr with h | h
    · rw [h]; exact h2
    · exact ih2.2.2 r h

/-- An attempt that does not start a job leaves the state as it is. -/
theorem dispatch_unchanged (quota : Nat) (s : Provider) (id : Nat)
    (h : (dispatch quota s id).1 ≠ DispatchResult.Started) : (dispatch quota s id).2 = s := by
  unfold dispatch at h ⊢
  by_cases hq : quota ≤ s.jobs.length
  · rw [if_pos hq]
  · rw [if_neg hq] at h ⊢
    cases hu : updateStatus s.ledger id TaskStatus.RECEIVED TaskStatus.RUNNING with
    | ok l2 => rw [hu] at h; exact absurd rfl h
    | error e => cases e <;> rfl

/-- An attempt that starts a job found the task RECEIVED and leaves it RUNNING. -/
theorem dispatch_started (quota : Nat) (s : Provider) (id : Nat)
    (h : (dispatch quota s id).1 = DispatchResult.Started) :
    ∃ t, (dispatch quota s id).2.ledger[id]? = some t ∧ t.status = TaskStatus.RUNNING := by
  unfold dispatch at h ⊢
  by_cases hq : quota ≤ s.jobs.length
  · rw [if_pos hq] at h
    exact absurd h (by simp)
  · rw [if_neg hq] at h ⊢
    unfold updateStatus at h ⊢
    cases hl : s.ledger[id]? with
    | none => rw [hl] at h; simp at h
    | some t =>
      rw [hl] at h
      have hlt : id < s.ledger.length := (List.getElem?_eq_some_iff.mp hl).1
      by_cases hs : t.status = TaskStatus.RECEIVED
      · simp [hs, List.getElem?_set, hlt]
      · simp [hs] at h

/-- Whatever the state, at most one of the attempts for a task starts a job. -/
theorem dispatchN_count_le_one (quota : Nat) (id : Nat) (n : Nat) : ∀ s : Provider,
    (dispatchN quota id n s).1.count DispatchResult.Started ≤ 1 := by
  induction n with
  | zero => intro s; simp [dispatchN]
  | succ n ih =>
    intro s
    simp only [dispatchN]
    by_cases h : (dispatch quota s id).1 = DispatchResult.Started
    · obtain ⟨t, ht, hs⟩ := dispatch_started quota s id h
      have hrest := dispatchN_not_received quota id n (dispatch quota s id).2 t ht
        (by rw [hs]; decide)
      have hzero : (dispatchN quota id n (dispatch quota s id).2).1.count
          DispatchResult.Started = 0 := by
        rw [List.count_eq_zero]
        intro hmem
        rcases hrest.2.2 _ hmem with h2 | h2 <;> exact absurd h2 (by decide)
      rw [h, List.count_cons_self, hzero]
    · rw [List.count_cons_of_ne (fun e => h e.symm)]
      exact ih _

theorem dispatchN_jobs_count (quota : Nat) (id : Nat) (n : Nat) : ∀ s : Provider,
    (∀ t, s.ledger[id]? = some t → t.status = TaskStatus.RECEIVED → id ∉ s.jobs) →
    s.jobs.count id ≤ 1 → (dispatchN quota id n s).2.jobs.count id ≤ 1 := by
  induction n with
  | zero => intro s _ h; simpa [dispatchN] using h
  | succ n ih =>
    intro s hcons hcount
    simp only [dispatchN]
    by_cases h : (dispatch quota s id).1 = DispatchResult.Started
    · obtain ⟨t, ht, hs⟩ := dispatch_started quota s id h
      have hrest := dispatchN_not_received quota id n (dispatch quota s id).2 t ht
        (by rw [hs]; decide)
      rw [hrest.1]
      -- the job list after the winning attempt
      unfold dispatch at h ⊢
      by_cases hq : quota ≤ s.jobs.length
      · rw [if_pos hq] at h
        exact absurd h (by simp)
      · rw [if_neg hq] at h ⊢
        unfold updateStatus at h ⊢
        cases hl : s.ledger[id]? with
        | none => rw [hl] at h; simp at h
        | some t0 =>
          rw [hl] at h
          by_cases hs0 : t0.status = TaskStatus.RECEIVED
          · have hnot := hcons t0 hl hs0
            simp [hs0, List.count_eq_zero.mpr hnot]
          · simp [hs0] at h
    · rw [dispatch_unchanged quota s id h]
      exact ih s hcons hcount
/-! ## The claims -/

/-- C2: with the configuration loaded, `ubi list` issues exactly one query, namely
`GetTaskList(TASK_SUCCESS_STATUS)` without `--show-failed` and `GetAllTask` with it; when the
query succeeds with `ts` the rendered table is the one built from `ts`, with one row per
returned task (so each FAILED task returned gets a row) and no error; when it fails the
command returns the `failed get ubi task` error and renders nothing. -/
theorem list_query_selection (m : Models) (w : World) (hcfg : w.InitConfig w.CP_PATH = none) :
    (w.showFailed = false →
      (listAction m w).queries = [Query.GetTaskList m.TASK_SUCCESS_STATUS] ∧
      (∀ ts, w.GetTaskList m.TASK_SUCCESS_STATUS = Except.ok ts →
        (listAction m w).rendered = some (listTable m w.Local ts) ∧
        (listTable m w.Local ts).data = ts.map (listRow m w.Local) ∧
        (listAction m w).err = none) ∧
      (∀ e, w.GetTaskList m.TASK_SUCCESS_STATUS = Except.error e →
        (listAction m w).rendered = none ∧
        (listAction m w).err = some (GoError.errorf ("failed get ubi task, error: " ++ e)))) ∧
    (w.showFailed = true →
      (listAction m w).queries = [Query.GetAllTask] ∧
      (∀ ts, w.GetAllTask = Except.ok ts →
        (listAction m w).rendered = some (listTable m w.Local ts) ∧
        (listTable m w.Local ts).data = ts.map (listRow m w.Local) ∧
        (∀ t ∈ ts, t.Status = m.TASK_FAILED_STATUS →
          listRow m w.Local t ∈ (listTable m w.Local ts).data) ∧
        (listAction m w).err = none) ∧
      (∀ e, w.GetAllTask = Except.error e →
        (listAction m w).rendered = none ∧
        (listAction m w).err = some (GoError.errorf ("failed get ubi task, error: " ++ e)))) := by
  refine ⟨fun hf => ⟨?_, ?_, ?_⟩, fun hf => ⟨?_, ?_, ?_⟩⟩
  · unfold listAction
    rw [hcfg]
    cases hq : w.GetTaskList m.TASK_SUCCESS_STATUS <;> simp [hf]
  · intro ts hq
    simp [listAction, hcfg, hf, hq, listTable_data]
  · intro e hq
    simp [listAction, hcfg, hf, hq]
  · unfold listAction
    rw [hcfg]
    cases hq : w.GetAllTask <;> simp [hf]
  · intro ts hq
    refine ⟨by simp [listAction, hcfg, hf, hq], listTable_data m w.Local ts, ?_,
      by simp [listAction, hcfg, hf, hq]⟩
    intro t ht _
    rw [listTable_data]
    exact List.mem_map_of_mem _ ht
  · intro e hq
    simp [listAction, hcfg, hf, hq]

/-- Witness for C2: in the sample world with `--show-failed`, both ledger tasks are rendered. -/
theorem list_query_selection_witness :
    (sampleWorld true "" 0).InitConfig (sampleWorld true "" 0).CP_PATH = none ∧
    (listAction sampleModels (sampleWorld true "" 0)).queries = [Query.GetAllTask] ∧
    (listAction sampleModels (sampleWorld true "" 0)).rendered =
      some (listTable sampleModels (fun _ => 0) [sampleTask 1 3, sampleTask 2 4]) :=
  ⟨rfl, ((list_query_selection sampleModels (sampleWorld true "" 0) rfl).2 rfl).1,
    (((list_query_selection sampleModels (sampleWorld true "" 0) rfl).2 rfl).2.1
      [sampleTask 1 3, sampleTask 2 4] rfl).1⟩

/-- C5: the rows of `ubi detail` are the seven fixed rows, then one row for each of
RewardTx, ChallengeTx, SlashTx that is non-empty (in that order), then CreateTime last;
there are 8 rows plus one per non-empty hash, and every row has 2 cells. -/
theorem detail_rows_layout (m : Models) (loc : Int → Int) (t : TaskEntity) :
    detailRows m loc t =
      [["Task Name:", t.Name], ["ZK Type:", t.ZkType], ["Contract Address:", t.Contract],
        ["Task Status:", m.TaskStatusStr t.Status],
        ["Reward Status:", m.GetRewardStr t.RewardStatus], ["Reward:", t.Reward],
        ["Proof Tx Hash:", t.TxHash]]
      ++ (if t.RewardTx ≠ "" then [["Reward Tx Hash:", t.RewardTx]] else [])
      ++ (if t.ChallengeTx ≠ "" then [["Challenge Tx Hash:", t.ChallengeTx]] else [])
      ++ (if t.SlashTx ≠ "" then [["Slash Tx Hash:", t.SlashTx]] else [])
      ++ [["CreateTime:", formatUnix loc t.CreateTime]] ∧
    (detailRows m loc t).length =
      8 + ((if t.RewardTx ≠ "" then 1 else 0) + (if t.ChallengeTx ≠ "" then 1 else 0)
        + (if t.SlashTx ≠ "" then 1 else 0)) ∧
    (∀ r ∈ detailRows m loc t, r.length = 2) ∧
    ((∃ v, ["Reward Tx Hash:", v] ∈ detailRows m loc t) ↔ t.RewardTx ≠ "") ∧
    ((∃ v, ["Challenge Tx Hash:", v] ∈ detailRows m loc t) ↔ t.ChallengeTx ≠ "") ∧
    ((∃ v, ["Slash Tx Hash:", v] ∈ detailRows m loc t) ↔ t.SlashTx ≠ "") ∧
    (detailRows m loc t).getLast? = some ["CreateTime:", formatUnix loc t.CreateTime] := by
  refine ⟨detailRows_eq m loc t, ?_, ?_, ?_, ?_, ?_, ?_⟩ <;> rw [detailRows_eq] <;>
    by_cases h1 : t.RewardTx = "" <;> by_cases h2 : t.ChallengeTx = "" <;>
    by_cases h3 : t.SlashTx = "" <;> simp [h1, h2, h3]

/-- Witness for C5: the sample task has a challenge hash only, so 9 rows, each of 2 cells. -/
theorem detail_rows_layout_witness :
    (detailRows sampleModels (fun _ => 0) (sampleTask 1 3)).length = 9 ∧
    (["Challenge Tx Hash:", "0xch"] ∈ detailRows sampleModels (fun _ => 0) (sampleTask 1 3) →
      (["Challenge Tx Hash:", "0xch"] : List String).length = 2) :=
  ⟨(detail_rows_layout sampleModels (fun _ => 0) (sampleTask 1 3)).2.1.trans (by decide),
    (detail_rows_layout sampleModels (fun _ => 0) (sampleTask 1 3)).2.2.1
      ["Challenge Tx Hash:", "0xch"]⟩

/-- C9: the colour entry targets the status cell.  In `ubi list` the entry for index `i`
has row `i` and column `[4]`, header cell 4 is "STATUS" and cell 4 of row `i` is
`TaskStatusStr(ts[i].Status)`.  In `ubi detail` there is one entry, with row 3 and
column `[1]`, and row 3 is `["Task Status:", TaskStatusStr(t.Status)]`. -/
theorem colour_entry_targets_status_cell (m : Models) (loc : Int → Int)
    (ts : List TaskEntity) (i : Nat) (h : i < ts.length) (idStr : String) (t : TaskEntity) :
    ((listTable m loc ts).rowColor[i]? =
        some { row := i, column := [4], color := listRowColor m ts[i] } ∧
      (listTable m loc ts).header[4]? = some "STATUS" ∧
      ((listTable m loc ts).data[i]?).bind (fun r => r[4]?) =
        some (m.TaskStatusStr ts[i].Status)) ∧
    ((detailTable m loc idStr t).rowColor =
        [{ row := 3, column := [1], color := detailRowColor m t }] ∧
      ((detailTable m loc idStr t).data[3]?).bind (fun r => r[0]?) = some "Task Status:" ∧
      ((detailTable m loc idStr t).data[3]?).bind (fun r => r[1]?) =
        some (m.TaskStatusStr t.Status)) := by
  refine ⟨⟨?_, ?_, ?_⟩, ?_, ?_, ?_⟩
  · rw [listTable_rowColor]
    simp [List.getElem?_map, List.getElem?_enum, List.getElem?_eq_getElem h]
  · simp [listTable, listHeader]
  · rw [listTable_data]
    simp [List.getElem?_map, List.getElem?_eq_getElem h, listRow]
  · simp [detailTable, detailRowColorList]
  · simp [detailTable, detailRows_eq]
  · simp [detailTable, detailRows_eq]

/-- Witness for C9: the second task of a two-task list, and a detail view. -/
theorem colour_entry_targets_status_cell_witness :
    (1 < [sampleTask 1 3, sampleTask 2 4].length) ∧
    (listTable sampleModels (fun _ => 0) [sampleTask 1 3, sampleTask 2 4]).rowColor[1]? =
      some { row := 1, column := [4],
             color := [[TableAttr.Bold, TableAttr.FgRedColor]] } :=
  ⟨by decide,
    (colour_entry_targets_status_cell sampleModels (fun _ => 0)
      [sampleTask 1 3, sampleTask 2 4] 1 (by decide) "2" (sampleTask 2 4)).1.1⟩

/-- C10: `ubi list` and `ubi detail` select the colour by the same function of the status;
with pairwise distinct status constants it is bold white for RECEIVED, bold cyan for
RUNNING, bold green for SUCCESS, bold red for FAILED, the empty colour list for every
other value, and two different statuses among the four get different colours. -/
theorem status_colour_selection (m : Models)
    (hd : m.TASK_RECEIVED_STATUS ≠ m.TASK_RUNNING_STATUS ∧
      m.TASK_RECEIVED_STATUS ≠ m.TASK_SUCCESS_STATUS ∧
      m.TASK_RECEIVED_STATUS ≠ m.TASK_FAILED_STATUS ∧
      m.TASK_RUNNING_STATUS ≠ m.TASK_SUCCESS_STATUS ∧
      m.TASK_RUNNING_STATUS ≠ m.TASK_FAILED_STATUS ∧
      m.TASK_SUCCESS_STATUS ≠ m.TASK_FAILED_STATUS) :
    (∀ t : TaskEntity, listRowColor m t = detailRowColor m t) ∧
    (∀ t : TaskEntity, t.Status = m.TASK_RECEIVED_STATUS →
      listRowColor m t = [[TableAttr.Bold, TableAttr.FgWhiteColor]]) ∧
    (∀ t : TaskEntity, t.Status = m.TASK_RUNNING_STATUS →
      listRowColor m t = [[TableAttr.Bold, TableAttr.FgCyanColor]]) ∧
    (∀ t : TaskEntity, t.Status = m.TASK_SUCCESS_STATUS →
      listRowColor m t = [[TableAttr.Bold, TableAttr.FgGreenColor]]) ∧
    (∀ t : TaskEntity, t.Status = m.TASK_FAILED_STATUS →
      listRowColor m t = [[TableAttr.Bold, TableAttr.FgRedColor]]) ∧
    (∀ t : TaskEntity, t.Status ≠ m.TASK_RECEIVED_STATUS → t.Status ≠ m.TASK_RUNNING_STATUS →
      t.Status ≠ m.TASK_SUCCESS_STATUS → t.Status ≠ m.TASK_FAILED_STATUS →
      listRowColor m t = []) ∧
    (∀ t u : TaskEntity,
      (t.Status = m.TASK_RECEIVED_STATUS ∨ t.Status = m.TASK_RUNNING_STATUS ∨
        t.Status = m.TASK_SUCCESS_STATUS ∨ t.Status = m.TASK_FAILED_STATUS) →
      (u.Status = m.TASK_RECEIVED_STATUS ∨ u.Status = m.TASK_RUNNING_STATUS ∨
        u.Status = m.TASK_SUCCESS_STATUS ∨ u.Status = m.TASK_FAILED_STATUS) →
      t.Status ≠ u.Status → listRowColor m t ≠ listRowColor m u) := by
  obtain ⟨h12, h13, h14, h23, h24, h34⟩ := hd
  refine ⟨fun t => rfl, ?_, ?_, ?_, ?_, ?_, ?_⟩
  · intro t ht
    simp [listRowColor, ht]
  · intro t ht
    simp [listRowColor, ht, h12.symm]
  · intro t ht
    simp [listRowColor, ht, h13.symm, h23.symm]
  · intro t ht
    simp [listRowColor, ht, h14.symm, h24.symm, h34.symm]
  · intro t a b c d
    simp [listRowColor, a, b, c, d]
  · intro t u ht hu hne
    rcases ht with ht | ht | ht | ht <;> rcases hu with hu | hu | hu | hu <;>
      first
      | (exfalso; exact hne (ht.trans hu.symm))
      | simp [listRowColor, ht, hu, h12, h13, h14, h23, h24, h34, h12.symm, h13.symm,
          h14.symm, h23.symm, h24.symm, h34.symm]

/-- Witness for C10: the sample constants 1, 2, 3, 4 are distinct; a running task is cyan
in both commands. -/
theorem status_colour_selection_witness :
    listRowColor sampleModels (sampleTask 7 2) = [[TableAttr.Bold, TableAttr.FgCyanColor]] ∧
    detailRowColor sampleModels (sampleTask 7 2) = [[TableAttr.Bold, TableAttr.FgCyanColor]] :=
  have h := status_colour_selection sampleModels (by decide)
  ⟨h.2.2.1 (sampleTask 7 2) rfl, (h.1 (sampleTask 7 2)) ▸ h.2.2.1 (sampleTask 7 2) rfl⟩

/-- C6 as stated fails: two runs of `ubi list` (and of `ubi detail`) with the same flag,
the same argument and the same query answers render different tables when the local time
zone of the process differs (UTC against UTC+1). -/
theorem table_depends_on_local_zone :
    ¬ (∀ (m : Models) (w1 w2 : World),
        w1.InitConfig w1.CP_PATH = none → w2.InitConfig w2.CP_PATH = none →
        w1.showFailed = w2.showFailed → w1.arg0 = w2.arg0 →
        listQueryResult m w1 = listQueryResult m w2 →
        w1.GetTaskEntity = w2.GetTaskEntity →
        (listAction m w1).rendered = (listAction m w2).rendered ∧
        (detailAction m w1).rendered = (detailAction m w2).rendered) := by
  intro h
  have h1 := (h sampleModels (sampleWorld false "1" 0) (sampleWorld false "1" 3600)
    rfl rfl rfl rfl rfl rfl).1
  revert h1
  decide

/-- C6 amended: with the configuration loaded in both runs and the same local time zone,
the table of `ubi list` is determined by the flag and the answer of the issued query, and
the table of `ubi detail` by the argument and the answer of the lookup; and whatever the
time zones, the header, the colour list and every cell except the create-time cells
(last column of `ubi list`, last row of `ubi detail`) are the same. -/
theorem table_is_projection (m : Models) (w1 w2 : World)
    (hc1 : w1.InitConfig w1.CP_PATH = none) (hc2 : w2.InitConfig w2.CP_PATH = none) :
    (w1.Local = w2.Local → w1.showFailed = w2.showFailed →
      listQueryResult m w1 = listQueryResult m w2 →
      (listAction m w1).rendered = (listAction m w2).rendered) ∧
    (w1.Local = w2.Local → w1.arg0 = w2.arg0 →
      w1.GetTaskEntity (ParseInt w1.arg0).1 = w2.GetTaskEntity (ParseInt w2.arg0).1 →
      (detailAction m w1).rendered = (detailAction m w2).rendered) ∧
    (∀ ts : List TaskEntity,
      (listTable m w1.Local ts).header = (listTable m w2.Local ts).header ∧
      (listTable m w1.Local ts).rowColor = (listTable m w2.Local ts).rowColor ∧
      (listTable m w1.Local ts).data.map (List.take 6) =
        (listTable m w2.Local ts).data.map (List.take 6)) ∧
    (∀ (idStr : String) (t : TaskEntity),
      (detailTable m w1.Local idStr t).header = (detailTable m w2.Local idStr t).header ∧
      (detailTable m w1.Local idStr t).rowColor = (detailTable m w2.Local idStr t).rowColor ∧
      (detailTable m w1.Local idStr t).data.dropLast =
        (detailTable m w2.Local idStr t).data.dropLast) := by
  refine ⟨?_, ?_, ?_, ?_⟩
  · intro hz hf hq
    unfold listQueryResult at hq
    unfold listAction
    rw [hc1, hc2, ← hf, ← hz]
    cases hb : w1.showFailed
    · rw [hb, ← hf, hb] at hq
      simp only [Bool.false_eq_true, if_false] at hq ⊢
      rw [← hq]
    · rw [hb, ← hf, hb] at hq
      simp only [if_true] at hq ⊢
      rw [← hq]
  · intro hz ha hq
    unfold detailAction
    rw [hc1, hc2, ← ha, ← hz]
    rw [← ha] at hq
    simp only
    by_cases ht : TrimSpace w1.arg0 = ""
    · simp [ht]
    · simp only [ht, if_false]
      rcases hp : ParseInt w1.arg0 with ⟨n, _ | e⟩
      · rw [hp] at hq
        simp only at hq ⊢
        rw [← hq]
      · rfl
  · intro ts
    refine ⟨rfl, ?_, ?_⟩
    · rw [listTable_rowColor, listTable_rowColor]
    · rw [listTable_data, listTable_data]
      simp [listRow]
  · intro idStr t
    refine ⟨rfl, rfl, ?_⟩
    simp only [detailTable, detailRows_eq]
    rw [List.dropLast_concat, List.dropLast_concat]

/-- Witness for C6 amended: two sample worlds that differ in `CP_PATH` only. -/
theorem table_is_projection_witness :
    (listAction sampleModels (sampleWorld true "1" 0)).rendered =
      (listAction sampleModels { sampleWorld true "1" 0 with CP_PATH := "/other" }).rendered :=
  (table_is_projection sampleModels (sampleWorld true "1" 0)
    { sampleWorld true "1" 0 with CP_PATH := "/other" } rfl rfl).1 rfl rfl rfl

/-- C4: with the configuration loaded, `ubi detail` applied to the first argument `s`
(1) returns `task_id is required`, without lookup or table, when `s` is blank;
(2) returns the `ParseInt` error, without lookup or table, when `s` (untrimmed) is not a
base-10 signed 64-bit integer literal;
(3) looks up exactly `n` and returns the error naming `n`, without table, when `s` denotes
`n` and `GetTaskEntity(n)` fails;
and otherwise looks up exactly `n`, renders the table and returns nil.  Hence an error is
returned if and only if one of (1), (2), (3) holds. -/
theorem detail_error_cases (m : Models) (w : World) (hcfg : w.InitConfig w.CP_PATH = none) :
    (TrimSpace w.arg0 = "" →
      detailAction m w = ⟨[], none, some (GoError.errorf "task_id is required")⟩) ∧
    (TrimSpace w.arg0 ≠ "" → literalValue w.arg0 = none →
      ∃ k, detailAction m w = ⟨[], none, some (GoError.numError "ParseInt" w.arg0 k)⟩) ∧
    (∀ n e, literalValue w.arg0 = some n → w.GetTaskEntity n = Except.error e →
      detailAction m w = ⟨[Query.GetTaskEntity n], none,
        some (GoError.errorf ("get " ++ Itoa n ++ " task info failed, error: " ++ e))⟩) ∧
    (∀ n t, literalValue w.arg0 = some n → w.GetTaskEntity n = Except.ok t →
      detailAction m w =
        ⟨[Query.GetTaskEntity n], some (detailTable m w.Local w.arg0 t), none⟩) ∧
    ((detailAction m w).err ≠ none ↔
      (TrimSpace w.arg0 = "" ∨ literalValue w.arg0 = none ∨
        ∃ n e, literalValue w.arg0 = some n ∧ w.GetTaskEntity n = Except.error e)) := by
  have hlit := ParseInt_literal w.arg0
  have h1 : TrimSpace w.arg0 = "" →
      detailAction m w = ⟨[], none, some (GoError.errorf "task_id is required")⟩ := by
    intro hb
    simp [detailAction, hcfg, hb]
  have h2 : TrimSpace w.arg0 ≠ "" → literalValue w.arg0 = none →
      ∃ k, detailAction m w = ⟨[], none, some (GoError.numError "ParseInt" w.arg0 k)⟩ := by
    intro hb hn
    obtain ⟨v, k, hp⟩ := hlit.2 hn
    exact ⟨k, by simp [detailAction, hcfg, hb, hp]⟩
  have h3 : ∀ n e, literalValue w.arg0 = some n → w.GetTaskEntity n = Except.error e →
      detailAction m w = ⟨[Query.GetTaskEntity n], none,
        some (GoError.errorf ("get " ++ Itoa n ++ " task info failed, error: " ++ e))⟩ := by
    intro n e hn hq
    have hb := TrimSpace_ne_empty_of_literal w.arg0 n hn
    simp [detailAction, hcfg, hb, hlit.1 n hn, hq]
  have h4 : ∀ n t, literalValue w.arg0 = some n → w.GetTaskEntity n = Except.ok t →
      detailAction m w =
        ⟨[Query.GetTaskEntity n], some (detailTable m w.Local w.arg0 t), none⟩ := by
    intro n t hn hq
    have hb := TrimSpace_ne_empty_of_literal w.arg0 n hn
    simp [detailAction, hcfg, hb, hlit.1 n hn, hq]
  refine ⟨h1, h2, h3, h4, ?_⟩
  by_cases hb : TrimSpace w.arg0 = ""
  · simp [h1 hb, hb]
  · cases hn : literalValue w.arg0 with
    | none =>
      obtain ⟨k, hk⟩ := h2 hb hn
      simp [hk]
    | some n =>
      cases hq : w.GetTaskEntity n with
      | error e =>
        rw [h3 n e hn hq]
        simp only [ne_eq, reduceCtorEq, not_false_eq_true, true_iff]
        exact Or.inr (Or.inr ⟨n, e, rfl, hq⟩)
      | ok t =>
        rw [h4 n t hn hq]
        simp only [ne_eq, not_true_eq_false, false_iff, not_or]
        refine ⟨hb, by simp, ?_⟩
        rintro ⟨n2, e, hn2, hq2⟩
        rw [Option.some.inj hn2, hq2] at hq
        exact absurd hq (by simp)

/-- Witness for C4: the argument " 12" (a valid id with a leading blank) is rejected by
`ParseInt` before any lookup. -/
theorem detail_error_cases_witness :
    (sampleWorld false " 12" 0).InitConfig (sampleWorld false " 12" 0).CP_PATH = none ∧
    TrimSpace " 12" ≠ "" ∧ literalValue " 12" = none ∧
    ∃ k, detailAction sampleModels (sampleWorld false " 12" 0) =
      ⟨[], none, some (GoError.numError "ParseInt" " 12" k)⟩ :=
  ⟨rfl, by decide, by decide,
    (detail_error_cases sampleModels (sampleWorld false " 12" 0) rfl).2.1
      (by decide) (by decide)⟩

/-- C3: for the task sequence `ts` returned by the query, `ubi list` builds `len(ts)` rows;
row `i` is the 7-cell row (decimal id, resource-type string, zk type, proof tx hash, status
string, reward, formatted create time) of `ts[i]` alone, matching the 7-column header; the
rows are in the order of `ts`, and (ids being `int64` values) the ids read back from the
rows are the ids of `ts` in the same order, so rows of an id-ascending `ts` are
id-ascending.  The create-time cell shows the one valid date and clock that read the local
count of seconds of the create time (the create time plus the zone offset, wherever the
64-bit count of package `time` does not wrap), and for the years 0 to 9999 it is the
19-character text `YYYY-MM-DD hh:mm:ss` of that reading. -/
theorem list_rows_shape_and_order (m : Models) (loc : Int → Int) (ts : List TaskEntity) :
    (listTable m loc ts).data =
      ts.map (fun t => [Itoa t.Id, m.GetSourceTypeStr t.ResourceType, t.ZkType, t.TxHash,
        m.TaskStatusStr t.Status, t.Reward, formatUnix loc t.CreateTime]) ∧
    (listTable m loc ts).data.length = ts.length ∧
    (∀ r ∈ (listTable m loc ts).data, r.length = 7) ∧
    (listTable m loc ts).header =
      ["TASK ID", "TASK TYPE", "ZK TYPE", "PROOF HASH", "STATUS", "REWARD", "CREATE TIME"] ∧
    (listTable m loc ts).header.length = 7 ∧
    (∀ i : Nat, (listTable m loc ts).data[i]? = ts[i]?.map (listRow m loc)) ∧
    ((∀ t ∈ ts, -(2 : Int) ^ 63 ≤ t.Id ∧ t.Id < 2 ^ 63) →
      (listTable m loc ts).data.map rowId = ts.map (fun t => t.Id) ∧
      (List.Pairwise (fun a b => a.Id < b.Id) ts →
        List.Pairwise (fun r1 r2 => rowId r1 < rowId r2) (listTable m loc ts).data)) ∧
    (∀ t ∈ ts,
      isCivilReading (wallClock loc t.CreateTime) (wallSeconds loc t.CreateTime) = true ∧
      (∀ c : Clock, isCivilReading c (wallSeconds loc t.CreateTime) = true →
        c = wallClock loc t.CreateTime) ∧
      (-unixToAbsolute ≤ t.CreateTime + loc t.CreateTime →
        t.CreateTime + loc t.CreateTime < 18446744073709551616 - unixToAbsolute →
        wallSeconds loc t.CreateTime = t.CreateTime + loc t.CreateTime) ∧
      (0 ≤ (wallClock loc t.CreateTime).year → (wallClock loc t.CreateTime).year ≤ 9999 →
        (listRow m loc t)[6]? = some (clockText (wallClock loc t.CreateTime)))) := by
  have hdata := listTable_data m loc ts
  refine ⟨?_, ?_, ?_, rfl, rfl, ?_, ?_, ?_⟩
  · rw [hdata]
    rfl
  · rw [hdata, List.length_map]
  · rw [hdata]
    intro r hr
    obtain ⟨t, _, rfl⟩ := List.mem_map.mp hr
    rfl
  · intro i
    rw [hdata, List.getElem?_map]
  · intro hid
    have hids : (listTable m loc ts).data.map rowId = ts.map (fun t => t.Id) := by
      rw [hdata, List.map_map]
      apply List.map_congr_left
      intro t ht
      exact rowId_listRow m loc t (hid t ht).1 (hid t ht).2
    refine ⟨hids, fun hs => ?_⟩
    have h1 : List.Pairwise (fun a b : Int => a < b) (ts.map (fun t => t.Id)) :=
      (List.pairwise_map).mpr hs
    rw [← hids] at h1
    exact (List.pairwise_map).mp h1
  · intro t _
    refine ⟨wallClock_reading loc t.CreateTime, ?_, wallSeconds_eq loc t.CreateTime, ?_⟩
    · intro c hc
      exact isCivilReading_unique c _ _ hc (wallClock_reading loc t.CreateTime)
    · intro h0 h1
      rw [← formatUnix_layout loc t.CreateTime h0 h1]
      rfl

/-- Witness for C3: two sample tasks with ids 1 and 2, created at Unix time 0 and shown in
UTC. -/
theorem list_rows_shape_and_order_witness :
    (∀ t ∈ [sampleTask 1 3, sampleTask 2 4], -(2 : Int) ^ 63 ≤ t.Id ∧ t.Id < 2 ^ 63) ∧
    (listTable sampleModels (fun _ => 0) [sampleTask 1 3, sampleTask 2 4]).data.map rowId
      = [1, 2] ∧
    (listRow sampleModels (fun _ => 0) (sampleTask 1 3))[6]? = some "1970-01-01 00:00:00" :=
  ⟨by decide,
    ((list_rows_shape_and_order sampleModels (fun _ => 0) [sampleTask 1 3, sampleTask 2 4]
      ).2.2.2.2.2.2.1 (by decide)).1,
    ((list_rows_shape_and_order sampleModels (fun _ => 0) [sampleTask 1 3, sampleTask 2 4]
      ).2.2.2.2.2.2.2 (sampleTask 1 3) (by decide)).2.2.2 (by decide) (by decide)⟩

/-- C7: `InitDb(p)` opens the file `path.Join(p, "provider.db")`; it panics with
`failed to connect database` if and only if that open fails; when the open succeeds with
handle `h` it returns normally whatever `AutoMigrate` answers, the global `DB` is `h`, and
every later `NewDbService()` call returns `h`. -/
theorem InitDb_panics_iff_open_fails (env : DbWorld) (st : DbState) (p : String) :
    (InitDb env st p).1.calls.take (st.calls.length + 1) =
      st.calls ++ [DbCall.opened (env.pathJoin p "provider.db")] ∧
    ((InitDb env st p).2 = Except.error "failed to connect database" ↔
      ∃ e, env.gormOpen (env.pathJoin p "provider.db") = Except.error e) ∧
    ((InitDb env st p).2 ≠ Except.ok () →
      (InitDb env st p).2 = Except.error "failed to connect database") ∧
    (∀ h, env.gormOpen (env.pathJoin p "provider.db") = Except.ok h →
      (InitDb env st p).2 = Except.ok () ∧
      (InitDb env st p).1.DB = some h ∧
      (∀ k, callNewDbService k (InitDb env st p).1 = List.replicate k (some h)) ∧
      (∀ mig : Handle → Option String,
        InitDb { env with autoMigrate := mig } st p = InitDb env st p)) := by
  have hrep : ∀ (k : Nat) (s : DbState), callNewDbService k s = List.replicate k s.DB := by
    intro k
    induction k with
    | zero => intro s; rfl
    | succ k ih => intro s; simp [callNewDbService, NewDbService, ih, List.replicate_succ]
  unfold InitDb
  simp only [cpDBName]
  cases hopen : env.gormOpen (env.pathJoin p "provider.db") with
  | error e =>
    refine ⟨by simp, by simp, by simp, ?_⟩
    intro h hh
    exact absurd hh (by simp)
  | ok db =>
    refine ⟨by simp [List.take_append_eq_append_take], by simp, by simp, ?_⟩
    intro h hh
    have hdb : db = h := by injection hh
    subst hdb
    refine ⟨rfl, rfl, fun k => by rw [hrep], fun mig => ?_⟩
    simp [hopen]

/-- Witness for C7: the sample database opens although its migration fails. -/
theorem InitDb_panics_iff_open_fails_witness :
    sampleDbWorld.autoMigrate 7 = some "migration failed" ∧
    (InitDb sampleDbWorld ⟨none, []⟩ "/cp").2 = Except.ok () ∧
    (InitDb sampleDbWorld ⟨none, []⟩ "/cp").1.DB = some 7 :=
  ⟨rfl,
    ((InitDb_panics_iff_open_fails sampleDbWorld ⟨none, []⟩ "/cp").2.2.2 7 rfl).1,
    ((InitDb_panics_iff_open_fails sampleDbWorld ⟨none, []⟩ "/cp").2.2.2 7 rfl).2.1⟩

/-- C8: for a RECEIVED task with no active job and a free admission slot, among `n + 1`
dispatch attempts for its id exactly one starts the job (the transition RECEIVED→RUNNING)
and each of the other `n` is answered Conflict or Busy; the task is then RUNNING, and after
any number of the attempts at most one job for the id is active.  Whatever the state
before, at most one of the attempts starts a job. -/
theorem one_dispatch_wins (quota : Nat) (s : Provider) (id : Nat) (t : LedgerTask) (n : Nat)
    (ht : s.ledger[id]? = some t) (hs : t.status = TaskStatus.RECEIVED)
    (hfree : s.jobs.length < quota) (hnone : id ∉ s.jobs) :
    (∃ rest, (dispatchN quota id (n + 1) s).1 = DispatchResult.Started :: rest ∧
      rest.length = n ∧
      (∀ r ∈ rest, r = DispatchResult.Conflict ∨ r = DispatchResult.Busy)) ∧
    (dispatchN quota id (n + 1) s).1.count DispatchResult.Started = 1 ∧
    (dispatchN quota id (n + 1) s).1.length = n + 1 ∧
    (dispatchN quota id (n + 1) s).2.ledger[id]? = some { status := TaskStatus.RUNNING } ∧
    (∀ k : Nat, (dispatchN quota id k s).2.jobs.count id ≤ 1) ∧
    (∀ (s2 : Provider) (k : Nat),
      (dispatchN quota id k s2).1.count DispatchResult.Started ≤ 1) := by
  have hd := dispatch_received quota s id t ht hs hfree
  have hlt : id < s.ledger.length := (List.getElem?_eq_some_iff.mp ht).1
  have hrun : (dispatch quota s id).2.ledger[id]? = some { status := TaskStatus.RUNNING } := by
    rw [hd]
    simp [List.getElem?_set, hlt]
  have hrest := dispatchN_not_received quota id n (dispatch quota s id).2
    { status := TaskStatus.RUNNING } hrun (by decide)
  have hfirst : (dispatch quota s id).1 = DispatchResult.Started := by rw [hd]
  have hzero : (dispatchN quota id n (dispatch quota s id).2).1.count
      DispatchResult.Started = 0 := by
    rw [List.count_eq_zero]
    intro hmem
    rcases hrest.2.2 _ hmem with h2 | h2 <;> exact absurd h2 (by decide)
  refine ⟨⟨(dispatchN quota id n (dispatch quota s id).2).1, ?_, hrest.2.1, hrest.2.2⟩,
    ?_, ?_, ?_, ?_, ?_⟩
  · simp only [dispatchN, hfirst]
  · simp only [dispatchN, hfirst, List.count_cons_self, hzero]
  · simp only [dispatchN, List.length_cons, hrest.2.1]
  · simp only [dispatchN, hrest.1]
    exact hrun
  · intro k
    apply dispatchN_jobs_count quota id k s
    · intro _ _ _
      exact hnone
    · rw [List.count_eq_zero.mpr hnone]
      exact Nat.zero_le 1
  · intro s2 k
    exact dispatchN_count_le_one quota id k s2

/-- Witness for C8: three attempts on a RECEIVED task.  With a quota of 1 the losers are
answered Busy, with a quota of 2 they are answered Conflict. -/
theorem one_dispatch_wins_witness :
    (dispatchN 1 0 3 { ledger := [{ status := TaskStatus.RECEIVED }], jobs := [] }).1 =
      [DispatchResult.Started, DispatchResult.Busy, DispatchResult.Busy] ∧
    (dispatchN 2 0 3 { ledger := [{ status := TaskStatus.RECEIVED }], jobs := [] }).1 =
      [DispatchResult.Started, DispatchResult.Conflict, DispatchResult.Conflict] ∧
    (dispatchN 2 0 3 { ledger := [{ status := TaskStatus.RECEIVED }], jobs := [] }).1.count
      DispatchResult.Started = 1 :=
  ⟨by decide, by decide,
    (one_dispatch_wins 2 { ledger := [{ status := TaskStatus.RECEIVED }], jobs := [] } 0
      { status := TaskStatus.RECEIVED } 2 rfl rfl (by decide) (by decide)).2.1⟩

end Ubi
